import Mathlib

/-!
# Control-plane value synthesis of the hybrid botanist

A shallow embedding of `pkg/operation/hybridbotanist/controlplane.go` and the
properties of its resource sizing, admission plugin merge, replica decision,
checksum annotations and etcd role handling.
-/

namespace ControlPlane

/-! ## Resource sizing (`getResourcesForAPIServer`, lines 31-72) -/

/-- The Go function `getResourcesForAPIServer`: four local variables start at the
placeholders `0m` / `0Mi` and the `switch` assigns them per band. The result is
`(cpuRequest, memoryRequest, cpuLimit, memoryLimit)`. -/
def getResourcesForAPIServer (nodeCount : Int) : String × String × String × String := Id.run do
  let mut cpuRequest := "0m"
  let mut memoryRequest := "0Mi"
  let mut cpuLimit := "0m"
  let mut memoryLimit := "0Mi"
  if nodeCount ≤ 2 then
    cpuRequest := "800m"
    memoryRequest := "600Mi"
    cpuLimit := "1000m"
    memoryLimit := "900Mi"
  else if nodeCount ≤ 10 then
    cpuRequest := "1000m"
    memoryRequest := "800Mi"
    cpuLimit := "1200m"
    memoryLimit := "1400Mi"
  else if nodeCount ≤ 50 then
    cpuRequest := "1200m"
    memoryRequest := "1200Mi"
    cpuLimit := "1500m"
    memoryLimit := "3000Mi"
  else if nodeCount ≤ 100 then
    cpuRequest := "2500m"
    memoryRequest := "4000Mi"
    cpuLimit := "3000m"
    memoryLimit := "4500Mi"
  else
    cpuRequest := "3000m"
    memoryRequest := "4000Mi"
    cpuLimit := "4000m"
    memoryLimit := "6000Mi"
  return (cpuRequest, memoryRequest, cpuLimit, memoryLimit)

/-! ## Admission plugin merge (`DeployKubeAPIServer`, lines 257-271) -/

/-- An admission plugin: the name is the match key, the configuration of type `κ`
is carried along untouched. -/
structure AdmissionPlugin (κ : Type) where
  Name : String
  Config : κ
  deriving DecidableEq, Repr

variable {κ : Type}

/-- The inner loop (lines 260-266): scan the current list from the front; at the
first entry whose name equals the plugin's name, store the plugin there, set
`pluginOverwritesDefault` and break. Returns the flag and the list. -/
def overwriteFirst (plugin : AdmissionPlugin κ) :
    List (AdmissionPlugin κ) → Bool × List (AdmissionPlugin κ)
  | [] => (false, [])
  | defaultPlugin :: rest =>
    if defaultPlugin.Name = plugin.Name then (true, plugin :: rest)
    else ((overwriteFirst plugin rest).1, defaultPlugin :: (overwriteFirst plugin rest).2)

/-- One iteration of the outer loop (lines 257-271): run the inner loop and
append the plugin when it overwrote nothing. -/
def mergeStep (admissionPlugins : List (AdmissionPlugin κ)) (plugin : AdmissionPlugin κ) :
    List (AdmissionPlugin κ) :=
  let r := overwriteFirst plugin admissionPlugins
  if !r.1 then r.2 ++ [plugin] else r.2

/-- The outer loop over `apiServerConfig.AdmissionPlugins`, starting from the
version defaults. -/
def mergeAdmissionPlugins (defaults overrides : List (AdmissionPlugin κ)) :
    List (AdmissionPlugin κ) :=
  overrides.foldl mergeStep defaults

/-- Names of a plugin list, in order. -/
def pluginNames (l : List (AdmissionPlugin κ)) : List String := l.map (fun p => p.Name)

/-- Specification side of the merge, default positions: walking the defaults with
the names already seen, the first default entry of a name is replaced by the
override of that name when there is one; every other entry stays. -/
def specDefaults (overrides : List (AdmissionPlugin κ)) :
    List String → List (AdmissionPlugin κ) → List (AdmissionPlugin κ)
  | _, [] => []
  | seen, p :: ds =>
    (if p.Name ∈ seen then p
     else match overrides.find? (fun q => q.Name == p.Name) with
       | some q => q
       | none => p) :: specDefaults overrides (p.Name :: seen) ds

/-- Specification side of the merge: defaults with replacements, followed by the
overrides whose name does not occur among the defaults, in override order. -/
def specMerge (defaults overrides : List (AdmissionPlugin κ)) : List (AdmissionPlugin κ) :=
  specDefaults overrides [] defaults ++
    overrides.filter (fun q => !(pluginNames defaults).contains q.Name)


/-! ## Chart values -/

/-- A Go `interface{}` value as it is stored in a chart value map. Nested maps are
association lists; values that this file only passes through (networks, feature
gates, OIDC settings) arrive already boxed from the context. -/
inductive Value (κ : Type) where
  | str (s : String)
  | int (n : Int)
  | float (decimal : String)
  | obj (entries : List (String × Value κ))
  | plugins (l : List (AdmissionPlugin κ))
  | other (tag : String)

/-- A `map[string]interface{}`. -/
abbrev Values (κ : Type) := List (String × Value κ)

/-- Reading `m[k]` with presence. -/
def Values.get (m : Values κ) (k : String) : Option (Value κ) := List.lookup k m

/-- The assignment `m[k] = v`: the key holds `v` afterwards and no other entry. -/
def Values.set (m : Values κ) (k : String) (v : Value κ) : Values κ :=
  (k, v) :: m.filter (fun e => e.1 != k)

/-- The checksum map `b.CheckSums`, a `map[string]string`. -/
abbrev CheckSums := String → Option String

/-- The Go index expression `cs[k]` on a `map[string]string`: the zero value, the
empty string, when the key is missing. -/
def CheckSums.index (cs : CheckSums) (k : String) : String := (cs k).getD ""

/-- What the writers of `b.CheckSums` guarantee (lines 134, 155 and 161-163): every
stored value is a digest in hexadecimal, so no entry holds the empty string. -/
def CheckSums.Digests (cs : CheckSums) : Prop := ∀ name value, cs name = some value → value ≠ ""

/-! ## Context, collaborators and runs -/

/-- A Go `error` value together with what `apierrors.IsNotFound` says about it. -/
structure GoError where
  message : String
  isNotFound : Bool
  deriving DecidableEq, Repr

/-- How a function stops early: it returns an error, or a nil pointer is
dereferenced. -/
inductive Halt where
  | returned (err : GoError)
  | panicked
  deriving DecidableEq, Repr

/-- The autoscaler settings of a shooted seed; `MinReplicas` is a pointer. -/
structure ShootedSeedAPIServerAutoscaler where
  MinReplicas : Option Int
  MaxReplicas : Int

/-- The API server settings of a shooted seed; `Replicas` is a pointer. -/
structure ShootedSeedAPIServer where
  Replicas : Option Int
  Autoscaler : ShootedSeedAPIServerAutoscaler

/-- The value behind `b.ShootedSeed`. Only `Replicas` and `MinReplicas` are
dereferenced with `*` in the source; the other accesses are plain field reads. -/
structure ShootedSeed where
  APIServer : ShootedSeedAPIServer

/-- The part of a live deployment that is read: `Spec.Replicas`, a pointer. -/
structure Deployment where
  SpecReplicas : Option Int

/-- The field `Kubernetes.KubeAPIServer` of the shoot. -/
structure KubeAPIServerConfig (κ : Type) where
  FeatureGates : Value κ
  RuntimeConfig : Value κ
  OIDCConfig : Option (Value κ)
  AdmissionPlugins : List (AdmissionPlugin κ)

/-- Package level names used by the file whose declarations live in other
packages (`common`, `filepath`, `utils`, `kubernetes`). -/
structure Common (κ : Type) where
  chartPathControlPlane : String
  Join : List String → String
  EncodeBase64 : String → String
  GetAdmissionPluginsForVersion : String → List (AdmissionPlugin κ)
  BackupSecretName : String
  EtcdRoleMain : String
  EtcdRoleEvents : String
  KubeAPIServerDeploymentName : String
  KubeControllerManagerDeploymentName : String
  CloudControllerManagerDeploymentName : String
  KubeSchedulerDeploymentName : String
  CloudProviderSecretName : String
  CloudProviderConfigName : String

/-- The receiver `b *HybridBotanist`: the data the functions read and the
collaborators they call. Within one call of a function below no collaborator is
called twice with the same arguments, so a collaborator is given by its answer
per argument. -/
structure HybridBotanist (κ : Type) where
  CheckSums : CheckSums
  SeedNamespace : String
  KubernetesVersion : String
  ServiceNetwork : Value κ
  PodNetwork : Value κ
  SeedServices : Value κ
  SeedPods : Value κ
  SeedNodes : Value κ
  KubecfgUsername : String
  KubecfgPassword : String
  APIServerAddress : String
  SeedVersion : String
  CloudProviderName : String
  NodeCount : Int
  ShootedSeed : Option ShootedSeed
  KubeAPIServer : Option (KubeAPIServerConfig κ)
  KubeControllerManagerFeatureGates : Option (Value κ)
  CloudControllerManagerFeatureGates : Option (Value κ)
  KubeSchedulerFeatureGates : Option (Value κ)
  WaitUntilDNSNameResolvable : String → Except GoError String
  GenerateEtcdBackupConfig : Except GoError (Option (List (String × String)) × Option (Values κ))
  CreateSecret : String → String → List (String × String) → Option GoError
  InjectImages : Values κ → String → List (String × String) → Except GoError (Values κ)
  ApplyChartSeed : String → String → String → Values κ → Values κ → Option GoError
  DeleteService : String → String → Option GoError
  GetDeployment : String → String → Except GoError Deployment
  GenerateKubeAPIServerConfig : Except GoError (Values κ)
  GenerateKubeControllerManagerConfig : Except GoError (Values κ)
  GenerateCloudControllerManagerConfig : Except GoError (Values κ)
  GenerateKubeSchedulerConfig : Except GoError (Values κ)

/-- A collaborator call or receiver write, as recorded while a function runs. -/
inductive Call (κ : Type) where
  | generateEtcdBackupConfig
  | createSecret (ns name : String) (data : List (String × String))
  | injectImages (values : Values κ) (version : String) (images : List (String × String))
  | applyChartSeed (chartPath name ns : String) (defaultValues values : Values κ)
  | deleteService (ns name : String)
  | waitUntilDNSNameResolvable (address : String)
  | setAPIServerAddressIP (ip : String)
  | generateKubeAPIServerConfig
  | getDeployment (ns name : String)
  | generateKubeControllerManagerConfig
  | generateCloudControllerManagerConfig
  | generateKubeSchedulerConfig

/-- A run: the calls made so far, and either a value or the reason for stopping. -/
structure Run (κ : Type) (α : Type) where
  calls : List (Call κ)
  out : Except Halt α

/-- Continue with nothing recorded. -/
def Run.pure {α : Type} (a : α) : Run κ α := ⟨[], .ok a⟩

/-- Sequencing: a stopped run stays stopped, otherwise the calls are appended. -/
def Run.bind {α β : Type} (x : Run κ α) (f : α → Run κ β) : Run κ β :=
  match x.out with
  | .error h => ⟨x.calls, .error h⟩
  | .ok a => ⟨x.calls ++ (f a).calls, (f a).out⟩

instance : Monad (Run κ) where
  pure := Run.pure
  bind := Run.bind

/-- Stop: `return err`, or a panic. -/
def Run.halt {α : Type} (h : Halt) : Run κ α := ⟨[], .error h⟩

/-- Record a call and hand back its raw answer. -/
def Run.call {α : Type} (c : Call κ) (answer : α) : Run κ α := ⟨[c], .ok answer⟩

/-- A call followed by `if err != nil { return err }`. -/
def Run.check {α : Type} (c : Call κ) (answer : Except GoError α) : Run κ α :=
  match answer with
  | .ok a => ⟨[c], .ok a⟩
  | .error err => ⟨[c], .error (.returned err)⟩

/-- A call returning only an error, followed by `if err != nil { return err }`. -/
def Run.checkErr (c : Call κ) (answer : Option GoError) : Run κ Unit :=
  match answer with
  | none => ⟨[c], .ok ()⟩
  | some err => ⟨[c], .error (.returned err)⟩

/-- The pointer dereference `*p`. -/
def Run.deref {α : Type} (p : Option α) : Run κ α :=
  match p with
  | some a => ⟨[], .ok a⟩
  | none => ⟨[], .error .panicked⟩

/-! ## Checksum annotations -/

/-- The five component synthesizers. -/
inductive Component where
  | etcd
  | kubeAPIServer
  | kubeControllerManager
  | cloudControllerManager
  | kubeScheduler
  deriving DecidableEq, Repr

/-- The `podAnnotations` literals of the five functions, as rows
`(annotation key, artifact name whose checksum is read)`: lines 92-96, 190-202,
296-302, 344-348 and 382-384. -/
def podAnnotationSources (c : Common κ) : Component → List (String × String)
  | .etcd =>
    [("checksum/secret-etcd-ca", "ca-etcd"),
     ("checksum/secret-etcd-server-tls", "etcd-server-tls"),
     ("checksum/secret-etcd-client-tls", "etcd-client-tls")]
  | .kubeAPIServer =>
    [("checksum/secret-ca", "ca"),
     ("checksum/secret-ca-front-proxy", "ca-front-proxy"),
     ("checksum/secret-kube-apiserver", c.KubeAPIServerDeploymentName),
     ("checksum/secret-kube-aggregator", "kube-aggregator"),
     ("checksum/secret-kube-apiserver-kubelet", "kube-apiserver-kubelet"),
     ("checksum/secret-kube-apiserver-basic-auth", "kube-apiserver-basic-auth"),
     ("checksum/secret-vpn-seed", "vpn-seed"),
     ("checksum/secret-vpn-seed-tlsauth", "vpn-seed-tlsauth"),
     ("checksum/secret-service-account-key", "service-account-key"),
     ("checksum/secret-etcd-ca", "ca-etcd"),
     ("checksum/secret-etcd-client-tls", "etcd-client-tls")]
  | .kubeControllerManager =>
    [("checksum/secret-ca", "ca"),
     ("checksum/secret-kube-controller-manager", c.KubeControllerManagerDeploymentName),
     ("checksum/secret-service-account-key", "service-account-key"),
     ("checksum/secret-cloudprovider", c.CloudProviderSecretName),
     ("checksum/configmap-cloud-provider-config", c.CloudProviderConfigName)]
  | .cloudControllerManager =>
    [("checksum/secret-cloud-controller-manager", c.CloudControllerManagerDeploymentName),
     ("checksum/secret-cloudprovider", c.CloudProviderSecretName),
     ("checksum/configmap-cloud-provider-config", c.CloudProviderConfigName)]
  | .kubeScheduler =>
    [("checksum/secret-kube-scheduler", c.KubeSchedulerDeploymentName)]

/-- The `podAnnotations` map of a component: every row's key holds the value of the
index expression `b.CheckSums[artifact]`. -/
def podAnnotations (c : Common κ) (cs : CheckSums) (comp : Component) : Value κ :=
  .obj ((podAnnotationSources c comp).map (fun row => (row.1, Value.str (cs.index row.2))))

/-! ## The deploy functions -/

/-- The loop of `DeployETCD` over the roles (lines 109-122); `etcd` is the one map
that every iteration writes to and passes on. -/
def deployEtcdRoles (c : Common κ) (b : HybridBotanist κ) :
    Values κ → List String → Run κ Unit
  | _, [] => pure ()
  | etcd, role :: roles => do
    let etcd := etcd.set "role" (.str role)
    let etcd :=
      if role = c.EtcdRoleEvents then
        etcd.set "backup" (.obj [("storageProvider", .str "")])
      else etcd
    let chartPath := c.Join [c.chartPathControlPlane, "etcd"]
    Run.checkErr (.applyChartSeed chartPath ("etcd-" ++ role) b.SeedNamespace [] etcd)
      (b.ApplyChartSeed chartPath ("etcd-" ++ role) b.SeedNamespace [] etcd)
    let err ← Run.call (.deleteService b.SeedNamespace ("etcd-" ++ role))
      (b.DeleteService b.SeedNamespace ("etcd-" ++ role))
    match err with
    | some e => if !e.isNotFound then Run.halt (.returned e) else deployEtcdRoles c b etcd roles
    | none => deployEtcdRoles c b etcd roles

/-- The function `DeployETCD` (lines 77-125). The nil map passed to the chart apply
is the empty map, and a successful `InjectImages` returns a map that can be written
to. -/
def DeployETCD (c : Common κ) (b : HybridBotanist κ) : Run κ Unit := do
  let (secretData, backupConfigData) ←
    Run.check .generateEtcdBackupConfig b.GenerateEtcdBackupConfig
  match secretData with
  | some data =>
    Run.checkErr (.createSecret b.SeedNamespace c.BackupSecretName data)
      (b.CreateSecret b.SeedNamespace c.BackupSecretName data)
  | none => pure ()
  let etcdConfig : Values κ := [("podAnnotations", podAnnotations c b.CheckSums .etcd)]
  let etcdConfig :=
    match backupConfigData with
    | some backup => etcdConfig.set "backup" (.obj backup)
    | none => etcdConfig
  let images := [("etcd", "etcd"), ("etcd-backup-restore", "etcd-backup-restore")]
  let etcd ← Run.check (.injectImages etcdConfig b.SeedVersion images)
    (b.InjectImages etcdConfig b.SeedVersion images)
  deployEtcdRoles c b etcd [c.EtcdRoleMain, c.EtcdRoleEvents]

/-- The replica and resource part of `DeployKubeAPIServer` (lines 209-242). -/
def apiServerReplicas (c : Common κ) (b : HybridBotanist κ) (defaultValues : Values κ) :
    Run κ (Values κ) :=
  match b.ShootedSeed with
  | some shootedSeed => do
    let apiServer := shootedSeed.APIServer
    let autoscaler := apiServer.Autoscaler
    let replicas ← Run.deref apiServer.Replicas
    let defaultValues := defaultValues.set "replicas" (.int replicas)
    let minReplicas ← Run.deref autoscaler.MinReplicas
    let defaultValues := defaultValues.set "minReplicas" (.int minReplicas)
    let defaultValues := defaultValues.set "maxReplicas" (.int autoscaler.MaxReplicas)
    pure (defaultValues.set "apiServerResources"
      (.obj [("limits", .obj [("cpu", .str "1500m"), ("memory", .str "4000Mi")])]))
  | none => do
    let existingAPIServerDeployment ←
      Run.call (.getDeployment b.SeedNamespace c.KubeAPIServerDeploymentName)
        (b.GetDeployment b.SeedNamespace c.KubeAPIServerDeploymentName)
    let defaultValues :=
      match existingAPIServerDeployment with
      | .ok deployment =>
        match deployment.SpecReplicas with
        | some replicas =>
          if replicas > 0 then defaultValues.set "replicas" (.int replicas) else defaultValues
        | none => defaultValues
      | .error _ => defaultValues
    let (cpuRequest, memoryRequest, cpuLimit, memoryLimit) :=
      getResourcesForAPIServer b.NodeCount
    pure (defaultValues.set "apiServerResources"
      (.obj [("limits", .obj [("cpu", .str cpuLimit), ("memory", .str memoryLimit)]),
             ("requests", .obj [("cpu", .str cpuRequest), ("memory", .str memoryRequest)])]))

/-- The API server configuration part of `DeployKubeAPIServer` (lines 244-273). -/
def apiServerConfigValues (c : Common κ) (b : HybridBotanist κ) (defaultValues : Values κ) :
    Values κ :=
  let admissionPlugins := c.GetAdmissionPluginsForVersion b.KubernetesVersion
  match b.KubeAPIServer with
  | some apiServerConfig =>
    let defaultValues := defaultValues.set "featureGates" apiServerConfig.FeatureGates
    let defaultValues := defaultValues.set "runtimeConfig" apiServerConfig.RuntimeConfig
    let defaultValues :=
      match apiServerConfig.OIDCConfig with
      | some oidc => defaultValues.set "oidcConfig" oidc
      | none => defaultValues
    defaultValues.set "admissionPlugins"
      (.plugins (mergeAdmissionPlugins admissionPlugins apiServerConfig.AdmissionPlugins))
  | none => defaultValues.set "admissionPlugins" (.plugins admissionPlugins)

/-- The literal `defaultValues` of `DeployKubeAPIServer` (lines 174-203). -/
def apiServerDefaultValues (c : Common κ) (b : HybridBotanist κ) : Values κ :=
  [("etcdServicePort", .int 2379),
   ("etcdMainServiceFqdn",
      .str ("etcd-" ++ c.EtcdRoleMain ++ "-client." ++ b.SeedNamespace ++ ".svc")),
   ("etcdEventsServiceFqdn",
      .str ("etcd-" ++ c.EtcdRoleEvents ++ "-client." ++ b.SeedNamespace ++ ".svc")),
   ("kubernetesVersion", .str b.KubernetesVersion),
   ("shootNetworks", .obj [("service", b.ServiceNetwork)]),
   ("seedNetworks",
      .obj [("service", b.SeedServices), ("pod", b.SeedPods), ("node", b.SeedNodes)]),
   ("maxReplicas", .int 3),
   ("securePort", .int 443),
   ("probeCredentials",
      .str (c.EncodeBase64 (b.KubecfgUsername ++ ":" ++ b.KubecfgPassword))),
   ("podAnnotations", podAnnotations c b.CheckSums .kubeAPIServer)]

/-- The function `DeployKubeAPIServer` (lines 167-285). -/
def DeployKubeAPIServer (c : Common κ) (b : HybridBotanist κ) : Run κ Unit := do
  let apiServerAddressIP ← Run.check (.waitUntilDNSNameResolvable b.APIServerAddress)
    (b.WaitUntilDNSNameResolvable b.APIServerAddress)
  Run.call (.setAPIServerAddressIP apiServerAddressIP) ()
  let defaultValues := apiServerDefaultValues c b
  let cloudSpecificValues ← Run.check .generateKubeAPIServerConfig b.GenerateKubeAPIServerConfig
  let defaultValues ← apiServerReplicas c b defaultValues
  let defaultValues := apiServerConfigValues c b defaultValues
  let images := [("hyperkube", "hyperkube"), ("vpn-seed", "vpn-seed"),
    ("blackbox-exporter", "blackbox-exporter")]
  let values ← Run.check (.injectImages defaultValues b.SeedVersion images)
    (b.InjectImages defaultValues b.SeedVersion images)
  let chartPath := c.Join [c.chartPathControlPlane, c.KubeAPIServerDeploymentName]
  Run.checkErr
    (.applyChartSeed chartPath c.KubeAPIServerDeploymentName b.SeedNamespace values
      cloudSpecificValues)
    (b.ApplyChartSeed chartPath c.KubeAPIServerDeploymentName b.SeedNamespace values
      cloudSpecificValues)

/-- The function `DeployKubeControllerManager` (lines 289-334). -/
def DeployKubeControllerManager (c : Common κ) (b : HybridBotanist κ) : Run κ Unit := do
  let defaultValues : Values κ :=
    [("cloudProvider", .str b.CloudProviderName),
     ("clusterName", .str b.SeedNamespace),
     ("kubernetesVersion", .str b.KubernetesVersion),
     ("podNetwork", b.PodNetwork),
     ("serviceNetwork", b.ServiceNetwork),
     ("podAnnotations", podAnnotations c b.CheckSums .kubeControllerManager)]
  let cloudSpecificValues ←
    Run.check .generateKubeControllerManagerConfig b.GenerateKubeControllerManagerConfig
  let defaultValues :=
    match b.ShootedSeed with
    | some _ =>
      (defaultValues.set "resources"
        (.obj [("limits", .obj [("cpu", .str "750m"), ("memory", .str "1Gi")])])).set
        "horizontalPodAutoscaler"
        (.obj [("downscaleDelay", .str "24h"), ("upscaleDelay", .str "1m"),
               ("tolerance", .float "0.2")])
    | none => defaultValues
  let defaultValues :=
    match b.KubeControllerManagerFeatureGates with
    | some featureGates => defaultValues.set "featureGates" featureGates
    | none => defaultValues
  let images := [("hyperkube", "hyperkube")]
  let values ← Run.check (.injectImages defaultValues b.SeedVersion images)
    (b.InjectImages defaultValues b.SeedVersion images)
  let chartPath := c.Join [c.chartPathControlPlane, c.KubeControllerManagerDeploymentName]
  Run.checkErr
    (.applyChartSeed chartPath c.KubeControllerManagerDeploymentName b.SeedNamespace values
      cloudSpecificValues)
    (b.ApplyChartSeed chartPath c.KubeControllerManagerDeploymentName b.SeedNamespace values
      cloudSpecificValues)

/-- The function `DeployCloudControllerManager` (lines 338-375). -/
def DeployCloudControllerManager (c : Common κ) (b : HybridBotanist κ) : Run κ Unit := do
  let defaultValues : Values κ :=
    [("cloudProvider", .str b.CloudProviderName),
     ("clusterName", .str b.SeedNamespace),
     ("kubernetesVersion", .str b.KubernetesVersion),
     ("podNetwork", b.PodNetwork),
     ("podAnnotations", podAnnotations c b.CheckSums .cloudControllerManager)]
  let cloudSpecificValues ←
    Run.check .generateCloudControllerManagerConfig b.GenerateCloudControllerManagerConfig
  let defaultValues :=
    match b.ShootedSeed with
    | some _ =>
      defaultValues.set "resources"
        (.obj [("limits", .obj [("cpu", .str "500m"), ("memory", .str "512Mi")])])
    | none => defaultValues
  let defaultValues :=
    match b.CloudControllerManagerFeatureGates with
    | some featureGates => defaultValues.set "featureGates" featureGates
    | none => defaultValues
  let images := [("hyperkube", "hyperkube")]
  let values ← Run.check (.injectImages defaultValues b.SeedVersion images)
    (b.InjectImages defaultValues b.SeedVersion images)
  let chartPath := c.Join [c.chartPathControlPlane, c.CloudControllerManagerDeploymentName]
  Run.checkErr
    (.applyChartSeed chartPath c.CloudControllerManagerDeploymentName b.SeedNamespace values
      cloudSpecificValues)
    (b.ApplyChartSeed chartPath c.CloudControllerManagerDeploymentName b.SeedNamespace values
      cloudSpecificValues)

/-- The function `DeployKubeScheduler` (lines 379-411). -/
def DeployKubeScheduler (c : Common κ) (b : HybridBotanist κ) : Run κ Unit := do
  let defaultValues : Values κ :=
    [("kubernetesVersion", .str b.KubernetesVersion),
     ("podAnnotations", podAnnotations c b.CheckSums .kubeScheduler)]
  let cloudValues ← Run.check .generateKubeSchedulerConfig b.GenerateKubeSchedulerConfig
  let defaultValues :=
    match b.ShootedSeed with
    | some _ =>
      defaultValues.set "resources"
        (.obj [("limits", .obj [("cpu", .str "300m"), ("memory", .str "350Mi")])])
    | none => defaultValues
  let defaultValues :=
    match b.KubeSchedulerFeatureGates with
    | some featureGates => defaultValues.set "featureGates" featureGates
    | none => defaultValues
  let images := [("hyperkube", "hyperkube")]
  let values ← Run.check (.injectImages defaultValues b.SeedVersion images)
    (b.InjectImages defaultValues b.SeedVersion images)
  let chartPath := c.Join [c.chartPathControlPlane, c.KubeSchedulerDeploymentName]
  Run.checkErr
    (.applyChartSeed chartPath c.KubeSchedulerDeploymentName b.SeedNamespace values cloudValues)
    (b.ApplyChartSeed chartPath c.KubeSchedulerDeploymentName b.SeedNamespace values cloudValues)

/-- The deploy function of a component. -/
def deploy (c : Common κ) (b : HybridBotanist κ) : Component → Run κ Unit
  | .etcd => DeployETCD c b
  | .kubeAPIServer => DeployKubeAPIServer c b
  | .kubeControllerManager => DeployKubeControllerManager c b
  | .cloudControllerManager => DeployCloudControllerManager c b
  | .kubeScheduler => DeployKubeScheduler c b

/-! ## Reading a run -/

/-- The value maps handed to `InjectImages`, in call order. -/
def injected : List (Call κ) → List (Values κ)
  | [] => []
  | .injectImages values _ _ :: rest => values :: injected rest
  | _ :: rest => injected rest

/-- The value maps passed as last argument to the chart apply for a release name,
in call order. -/
def appliedTo (release : String) : List (Call κ) → List (Values κ)
  | [] => []
  | .applyChartSeed _ name _ _ values :: rest =>
    if name = release then values :: appliedTo release rest else appliedTo release rest
  | _ :: rest => appliedTo release rest

/-- Whether a run called the chart apply at all. -/
def calledApply : List (Call κ) → Bool
  | [] => false
  | .applyChartSeed _ _ _ _ _ :: _ => true
  | _ :: rest => calledApply rest

/-- The payload a component synthesizes: the map it hands to `InjectImages`. -/
def synthesized (c : Common κ) (b : HybridBotanist κ) (comp : Component) : Option (Values κ) :=
  (injected (deploy c b comp).calls).head?

/-- The entry of the `podAnnotations` map of a payload at an annotation key. -/
def annotationAt (p : Values κ) (key : String) : Option (Value κ) :=
  match p.get "podAnnotations" with
  | some (.obj entries) => List.lookup key entries
  | _ => none

/-! ## Concrete contexts -/

/-- A concrete set of package level names; `EncodeBase64` and `Join` are stand-ins
that keep their argument readable. -/
def sampleCommon : Common Nat where
  chartPathControlPlane := "charts/seed-controlplane/charts"
  Join := fun parts => "/".intercalate parts
  EncodeBase64 := fun text => text
  GetAdmissionPluginsForVersion := fun _ => [⟨"A", 0⟩, ⟨"B", 0⟩, ⟨"C", 0⟩]
  BackupSecretName := "etcd-backup"
  EtcdRoleMain := "main"
  EtcdRoleEvents := "events"
  KubeAPIServerDeploymentName := "kube-apiserver"
  KubeControllerManagerDeploymentName := "kube-controller-manager"
  CloudControllerManagerDeploymentName := "cloud-controller-manager"
  KubeSchedulerDeploymentName := "kube-scheduler"
  CloudProviderSecretName := "cloudprovider"
  CloudProviderConfigName := "cloud-provider-config"

/-- A botanist without shooted seed whose collaborators succeed: the backup
configuration is enabled, the legacy services are reported as not found, and the
live API server deployment has five replicas. -/
def sampleBotanist : HybridBotanist Nat where
  CheckSums := fun name => if name = "ca-etcd" then some "c0ffee" else none
  SeedNamespace := "shoot--dev--one"
  KubernetesVersion := "1.12.1"
  ServiceNetwork := .other "100.64.0.0/13"
  PodNetwork := .other "100.96.0.0/11"
  SeedServices := .other "10.0.0.0/16"
  SeedPods := .other "10.1.0.0/16"
  SeedNodes := .other "10.2.0.0/16"
  KubecfgUsername := "admin"
  KubecfgPassword := "secret"
  APIServerAddress := "api.one.example"
  SeedVersion := "1.12.1"
  CloudProviderName := "aws"
  NodeCount := 5
  ShootedSeed := none
  KubeAPIServer := some ⟨.other "gates", .other "runtime", none, [⟨"B", 1⟩, ⟨"D", 1⟩]⟩
  KubeControllerManagerFeatureGates := none
  CloudControllerManagerFeatureGates := none
  KubeSchedulerFeatureGates := none
  WaitUntilDNSNameResolvable := fun _ => .ok "192.0.2.1"
  GenerateEtcdBackupConfig :=
    .ok (some [("accessKey", "k")], some [("storageProvider", .str "S3")])
  CreateSecret := fun _ _ _ => none
  InjectImages := fun values _ _ => .ok values
  ApplyChartSeed := fun _ _ _ _ _ => none
  DeleteService := fun _ _ => some ⟨"not found", true⟩
  GetDeployment := fun _ _ => .ok ⟨some 5⟩
  GenerateKubeAPIServerConfig := .ok []
  GenerateKubeControllerManagerConfig := .ok []
  GenerateCloudControllerManagerConfig := .ok []
  GenerateKubeSchedulerConfig := .ok []

/-- The sample botanist as a shooted seed with static replicas 2, minimum 2 and
maximum 4. -/
def staticBotanist : HybridBotanist Nat :=
  { sampleBotanist with ShootedSeed := some ⟨⟨some 2, ⟨some 2, 4⟩⟩⟩ }

/-- The sample botanist as a shooted seed whose `Replicas` pointer is nil. -/
def nilReplicasBotanist : HybridBotanist Nat :=
  { sampleBotanist with ShootedSeed := some ⟨⟨none, ⟨some 2, 4⟩⟩⟩ }

/-- The sample botanist when reading the live deployment fails with an error that
is not a not-found error. -/
def readFailureBotanist : HybridBotanist Nat :=
  { sampleBotanist with GetDeployment := fun _ _ => .error ⟨"connection refused", false⟩ }

/-- The sample botanist with an empty checksum map. -/
def noChecksumBotanist : HybridBotanist Nat :=
  { sampleBotanist with CheckSums := fun _ => none }

/-- The checksum map of the sample botanist after `ca-etcd` changed. -/
def rotatedCheckSums : CheckSums :=
  fun name => if name = "ca-etcd" then some "decaf" else none

/-- The statement that for a component, changing only `ca-etcd` in the checksum
map of the sample botanist changes the synthesized annotations exactly at
`checksum/secret-etcd-ca`, and there only for etcd and the API server. -/
def caEtcdFrameAt (comp : Component) : Prop :=
  ∃ p1 p2, synthesized sampleCommon sampleBotanist comp = some p1 ∧
    synthesized sampleCommon { sampleBotanist with CheckSums := rotatedCheckSums } comp =
      some p2 ∧
    ∀ a, annotationAt p1 a ≠ annotationAt p2 a ↔
      ((comp = .etcd ∨ comp = .kubeAPIServer) ∧ a = "checksum/secret-etcd-ca")

/-! ### Lemmas on the merge -/

theorem overwriteFirst_none (q : AdmissionPlugin κ) (l : List (AdmissionPlugin κ))
    (h : q.Name ∉ pluginNames l) : overwriteFirst q l = (false, l) := by
  induction l with
  | nil => rfl
  | cons p ps ih =>
    simp only [pluginNames, List.map_cons, List.mem_cons, not_or] at h
    have hne : ¬ p.Name = q.Name := fun e => h.1 e.symm
    have := ih (by simpa [pluginNames] using h.2)
    simp [overwriteFirst, hne, this]

theorem overwriteFirst_fst (q : AdmissionPlugin κ) (l : List (AdmissionPlugin κ)) :
    (overwriteFirst q l).1 = true ↔ q.Name ∈ pluginNames l := by
  induction l with
  | nil => simp [overwriteFirst, pluginNames]
  | cons p ps ih =>
    by_cases hp : p.Name = q.Name
    · simp [overwriteFirst, hp, pluginNames]
    · have hq : ¬ q.Name = p.Name := fun e => hp e.symm
      simp only [overwriteFirst, hp, if_false, ih]
      simp [pluginNames, hq]

theorem overwriteFirst_names (q : AdmissionPlugin κ) (l : List (AdmissionPlugin κ)) :
    pluginNames (overwriteFirst q l).2 = pluginNames l := by
  induction l with
  | nil => rfl
  | cons p ps ih =>
    by_cases hp : p.Name = q.Name
    · simp [overwriteFirst, hp, pluginNames]
    · simp only [overwriteFirst, hp, if_false]
      simpa [pluginNames] using ih

theorem overwriteFirst_append_mem (q : AdmissionPlugin κ) (xs ys : List (AdmissionPlugin κ))
    (h : q.Name ∈ pluginNames xs) :
    overwriteFirst q (xs ++ ys) = (true, (overwriteFirst q xs).2 ++ ys) := by
  induction xs with
  | nil => simp [pluginNames] at h
  | cons p ps ih =>
    by_cases hp : p.Name = q.Name
    · simp [overwriteFirst, hp]
    · have hq : ¬ q.Name = p.Name := fun e => hp e.symm
      have h2 : q.Name ∈ pluginNames ps := by
        simpa [pluginNames, hq] using h
      simp [overwriteFirst, hp, ih h2]

theorem overwriteFirst_self (q : AdmissionPlugin κ) (xs ys : List (AdmissionPlugin κ))
    (h : q.Name ∉ pluginNames xs) :
    overwriteFirst q (xs ++ q :: ys) = (true, xs ++ q :: ys) := by
  induction xs with
  | nil => simp [overwriteFirst]
  | cons p ps ih =>
    simp only [pluginNames, List.map_cons, List.mem_cons, not_or] at h
    have hne : ¬ p.Name = q.Name := fun e => h.1 e.symm
    have := ih (by simpa [pluginNames] using h.2)
    simp [overwriteFirst, hne, this]

theorem mergeStep_names (cur : List (AdmissionPlugin κ)) (q : AdmissionPlugin κ) :
    pluginNames (mergeStep cur q) =
      pluginNames cur ++ (if q.Name ∈ pluginNames cur then [] else [q.Name]) := by
  by_cases h : q.Name ∈ pluginNames cur
  · have h1 := (overwriteFirst_fst q cur).2 h
    simp [mergeStep, h1, h, overwriteFirst_names]
  · have h1 := overwriteFirst_none q cur h
    rw [if_neg h]
    simp [mergeStep, h1, pluginNames]

theorem merge_names_extend (o cur : List (AdmissionPlugin κ)) :
    pluginNames cur <+: pluginNames (o.foldl mergeStep cur) := by
  induction o generalizing cur with
  | nil => exact List.prefix_refl _
  | cons q qs ih =>
    refine List.IsPrefix.trans ?_ (ih (mergeStep cur q))
    rw [mergeStep_names]
    exact List.prefix_append _ _

theorem mergeStep_length (cur : List (AdmissionPlugin κ)) (q : AdmissionPlugin κ) :
    cur.length ≤ (mergeStep cur q).length ∧ (mergeStep cur q).length ≤ cur.length + 1 := by
  have h := congrArg List.length (mergeStep_names cur q)
  simp only [pluginNames, List.length_map, List.length_append] at h
  split at h <;> simp at h <;> omega

theorem merge_length (o cur : List (AdmissionPlugin κ)) :
    cur.length ≤ (o.foldl mergeStep cur).length ∧
      (o.foldl mergeStep cur).length ≤ cur.length + o.length := by
  induction o generalizing cur with
  | nil => simp
  | cons q qs ih =>
    have h1 := mergeStep_length cur q
    have h2 := ih (mergeStep cur q)
    simp only [List.foldl_cons, List.length_cons]
    omega

theorem merge_append_of_nodup (o cur : List (AdmissionPlugin κ))
    (h : (pluginNames (cur ++ o)).Nodup) : o.foldl mergeStep cur = cur ++ o := by
  induction o generalizing cur with
  | nil => simp
  | cons q qs ih =>
    have hq : q.Name ∉ pluginNames cur := by
      simp only [pluginNames, List.map_append, List.map_cons] at h
      have := (List.nodup_append.1 h).2.2
      intro hm
      exact this hm (List.mem_cons_self _ _)
    have hs : mergeStep cur q = cur ++ [q] := by
      simp [mergeStep, overwriteFirst_none q cur hq]
    simp only [List.foldl_cons, hs]
    rw [ih (cur ++ [q]) (by simpa using h)]
    simp

theorem merge_self_of_nodup (b a : List (AdmissionPlugin κ))
    (h : (pluginNames (a ++ b)).Nodup) : b.foldl mergeStep (a ++ b) = a ++ b := by
  induction b generalizing a with
  | nil => simp
  | cons q qs ih =>
    have hq : q.Name ∉ pluginNames a := by
      simp only [pluginNames, List.map_append, List.map_cons] at h
      have := (List.nodup_append.1 h).2.2
      intro hm
      exact this hm (List.mem_cons_self _ _)
    have hs : mergeStep (a ++ q :: qs) q = a ++ q :: qs := by
      simp [mergeStep, overwriteFirst_self q a qs hq]
    simp only [List.foldl_cons, hs]
    have := ih (a ++ [q]) (by simpa using h)
    simpa using this

theorem find_name_snoc (o : List (AdmissionPlugin κ)) (q : AdmissionPlugin κ) (n : String)
    (h : q.Name ≠ n) :
    (o ++ [q]).find? (fun r => r.Name == n) = o.find? (fun r => r.Name == n) := by
  have hb : (q.Name == n) = false := by simpa using h
  induction o with
  | nil => simp [List.find?, hb]
  | cons r rs ih =>
    by_cases hr : r.Name = n
    · simp [List.find?, hr]
    · have hrb : (r.Name == n) = false := by simpa using hr
      simp [List.find?, hrb, ih]

theorem find_name_none (o : List (AdmissionPlugin κ)) (n : String)
    (h : n ∉ pluginNames o) : o.find? (fun r => r.Name == n) = none := by
  induction o with
  | nil => rfl
  | cons r rs ih =>
    simp only [pluginNames, List.map_cons, List.mem_cons, not_or] at h
    have hr : (r.Name == n) = false := by
      simpa using (fun e : r.Name = n => h.1 e.symm)
    have := ih (by simpa [pluginNames] using h.2)
    simp [List.find?, hr, this]

theorem find_name_snoc_new (o : List (AdmissionPlugin κ)) (q : AdmissionPlugin κ)
    (h : q.Name ∉ pluginNames o) :
    (o ++ [q]).find? (fun r => r.Name == q.Name) = some q := by
  induction o with
  | nil => simp [List.find?]
  | cons r rs ih =>
    simp only [pluginNames, List.map_cons, List.mem_cons, not_or] at h
    have hr : (r.Name == q.Name) = false := by
      simpa using (fun e : r.Name = q.Name => h.1 e.symm)
    have := ih (by simpa [pluginNames] using h.2)
    simp [List.find?, hr, this]

theorem find_name_some (o : List (AdmissionPlugin κ)) (n : String) (r : AdmissionPlugin κ)
    (h : o.find? (fun r => r.Name == n) = some r) : r.Name = n := by
  have := List.find?_some h
  simpa using this

/-- The entry the specification puts at a default position keeps the default's name. -/
theorem specDefaults_names (o : List (AdmissionPlugin κ)) (seen : List String)
    (d : List (AdmissionPlugin κ)) : pluginNames (specDefaults o seen d) = pluginNames d := by
  induction d generalizing seen with
  | nil => rfl
  | cons p ds ih =>
    have ih2 := ih (p.Name :: seen)
    simp only [pluginNames] at ih2
    simp only [specDefaults, pluginNames, List.map_cons, ih2, List.cons.injEq, and_true]
    split
    · rfl
    · split
      · next q hq => exact find_name_some o p.Name q hq
      · rfl

theorem specDefaults_snoc_same (o : List (AdmissionPlugin κ)) (q : AdmissionPlugin κ)
    (seen : List String) (d : List (AdmissionPlugin κ))
    (h : ∀ p ∈ d, p.Name = q.Name → p.Name ∈ seen) :
    specDefaults (o ++ [q]) seen d = specDefaults o seen d := by
  induction d generalizing seen with
  | nil => rfl
  | cons p ds ih =>
    have ih2 := ih (p.Name :: seen) (fun r hr e => by
      have := h r (List.mem_cons_of_mem _ hr) e
      exact List.mem_cons_of_mem _ this)
    simp only [specDefaults, ih2, List.cons.injEq, and_true]
    by_cases hs : p.Name ∈ seen
    · simp [hs]
    · have hne : q.Name ≠ p.Name := fun e => hs (h p (List.mem_cons_self _ _) e.symm)
      simp only [hs, if_false, find_name_snoc o q p.Name hne]

theorem overwriteFirst_specDefaults (o : List (AdmissionPlugin κ)) (q : AdmissionPlugin κ)
    (seen : List String) (d : List (AdmissionPlugin κ))
    (hd : q.Name ∈ pluginNames d) (hs : q.Name ∉ seen) (ho : q.Name ∉ pluginNames o) :
    (overwriteFirst q (specDefaults o seen d)).2 = specDefaults (o ++ [q]) seen d := by
  induction d generalizing seen with
  | nil => simp [pluginNames] at hd
  | cons p ds ih =>
    by_cases hp : p.Name = q.Name
    · have hps : p.Name ∉ seen := by rw [hp]; exact hs
      have hrest : specDefaults (o ++ [q]) (p.Name :: seen) ds
          = specDefaults o (p.Name :: seen) ds :=
        specDefaults_snoc_same o q (p.Name :: seen) ds
          (fun r _ e => by rw [e, hp]; exact List.mem_cons_self _ _)
      have hf : o.find? (fun r => r.Name == p.Name) = none :=
        find_name_none o p.Name (by rw [hp]; exact ho)
      have hf2 : (o ++ [q]).find? (fun r => r.Name == p.Name) = some q := by
        rw [hp]; exact find_name_snoc_new o q ho
      simp only [specDefaults, hps, if_false, hf, hf2, hrest]
      simp [overwriteFirst, hp]
    · have hq : q.Name ≠ p.Name := fun e => hp e.symm
      have hd2 : q.Name ∈ pluginNames ds := by
        simpa [pluginNames, hq] using hd
      have hs2 : q.Name ∉ p.Name :: seen := by
        simp [hq, hs]
      have ih2 := ih (p.Name :: seen) hd2 hs2
      have hhead : ∀ e : AdmissionPlugin κ, e.Name = p.Name →
          (overwriteFirst q (e :: specDefaults o (p.Name :: seen) ds)).2
            = e :: specDefaults (o ++ [q]) (p.Name :: seen) ds := by
        intro e he
        have : ¬ e.Name = q.Name := by rw [he]; exact hp
        simp [overwriteFirst, this, ih2]
      simp only [specDefaults, find_name_snoc o q p.Name hq]
      by_cases hps : p.Name ∈ seen
      · simp only [hps, if_true]
        exact hhead p rfl
      · simp only [hps, if_false]
        cases hfo : o.find? (fun r => r.Name == p.Name) with
        | none => exact hhead p rfl
        | some r => exact hhead r (find_name_some o p.Name r hfo)

/-- The loop computes the specification whenever the override names are pairwise
distinct. -/
theorem merge_eq_spec (d o : List (AdmissionPlugin κ)) (h : (pluginNames o).Nodup) :
    mergeAdmissionPlugins d o = specMerge d o := by
  induction o using List.reverseRecOn with
  | nil => 
    simp only [mergeAdmissionPlugins, specMerge, List.foldl_nil, List.filter_nil,
      List.append_nil]
    have : ∀ (seen : List String) (l : List (AdmissionPlugin κ)), specDefaults [] seen l = l := by
      intro seen l
      induction l generalizing seen with
      | nil => rfl
      | cons p ps ih => simp [specDefaults, ih]
    exact (this [] d).symm
  | append_singleton o q ih =>
    have hn : (pluginNames o).Nodup ∧ q.Name ∉ pluginNames o := by
      simp only [pluginNames, List.map_append, List.map_cons, List.map_nil] at h
      have h2 := List.nodup_append.1 h
      refine ⟨h2.1, fun hm => h2.2.2 hm (List.mem_singleton_self _)⟩
    have ih2 := ih hn.1
    simp only [mergeAdmissionPlugins] at ih2 ⊢
    rw [List.foldl_append, ih2]
    simp only [List.foldl_cons, List.foldl_nil, specMerge, List.filter_append]
    by_cases hd : q.Name ∈ pluginNames d
    · have hm : q.Name ∈ pluginNames (specDefaults o [] d) := by
        rw [specDefaults_names]; exact hd
      have h1 := overwriteFirst_append_mem q (specDefaults o [] d)
        (o.filter (fun q => !(pluginNames d).contains q.Name)) hm
      have h3 := overwriteFirst_specDefaults o q [] d hd (by simp) hn.2
      simp only [mergeStep, h1, h3]
      simp [hd]
    · have hm : q.Name ∉ pluginNames (specDefaults o [] d ++
          o.filter (fun q => !(pluginNames d).contains q.Name)) := by
        simp only [pluginNames, List.map_append, List.mem_append, not_or]
        refine ⟨?_, ?_⟩
        · have := specDefaults_names o [] d
          simp only [pluginNames] at this
          rw [this]; exact hd
        · intro hmem
          apply hn.2
          simp only [List.mem_map, List.mem_filter] at hmem
          obtain ⟨r, hr, hrn⟩ := hmem
          exact List.mem_map.2 ⟨r, hr.1, hrn⟩
      have h1 := overwriteFirst_none q _ hm
      have h3 := specDefaults_snoc_same o q [] d (fun p hp e => by
        exfalso; apply hd; rw [← e]; exact List.mem_map.2 ⟨p, hp, rfl⟩)
      simp only [mergeStep, h1, h3]
      simp [hd]

/-! ### Lemmas on value maps and runs -/

theorem lookup_filter_ne (m : Values κ) (j k : String) (h : j ≠ k) :
    List.lookup j (m.filter (fun e => e.1 != k)) = List.lookup j m := by
  induction m with
  | nil => rfl
  | cons e es ih =>
    obtain ⟨a, v⟩ := e
    by_cases ha : a = k
    · subst ha
      have hj : (j == a) = false := by simpa using h
      simp [List.filter, List.lookup, hj, ih]
    · have hb : (a != k) = true := by simpa using ha
      simp only [List.filter, hb, List.lookup, ih]

@[simp] theorem Values.get_set_self (m : Values κ) (k : String) (v : Value κ) :
    (m.set k v).get k = some v := by
  simp [Values.get, Values.set, List.lookup]

theorem Values.get_set_ne (m : Values κ) (j k : String) (v : Value κ) (h : j ≠ k) :
    (m.set k v).get j = m.get j := by
  have hj : (j == k) = false := by simpa using h
  simp [Values.get, Values.set, List.lookup, hj, lookup_filter_ne m j k h]

theorem Run.bind_eq {α β : Type} (x : Run κ α) (f : α → Run κ β) :
    x >>= f = Run.bind x f := rfl

theorem Run.pure_eq {α : Type} (a : α) : (Pure.pure a : Run κ α) = Run.pure a := rfl

/-! ## Resource sizing -/

/-- C1: `getResourcesForAPIServer` is total and returns the band quadruple for
every integer node count, negative ones included, and never the placeholders. -/
theorem getResourcesForAPIServer_bands (nodeCount : Int) :
    (nodeCount ≤ 2 →
      getResourcesForAPIServer nodeCount = ("800m", "600Mi", "1000m", "900Mi")) ∧
    (3 ≤ nodeCount ∧ nodeCount ≤ 10 →
      getResourcesForAPIServer nodeCount = ("1000m", "800Mi", "1200m", "1400Mi")) ∧
    (11 ≤ nodeCount ∧ nodeCount ≤ 50 →
      getResourcesForAPIServer nodeCount = ("1200m", "1200Mi", "1500m", "3000Mi")) ∧
    (51 ≤ nodeCount ∧ nodeCount ≤ 100 →
      getResourcesForAPIServer nodeCount = ("2500m", "4000Mi", "3000m", "4500Mi")) ∧
    (100 < nodeCount →
      getResourcesForAPIServer nodeCount = ("3000m", "4000Mi", "4000m", "6000Mi")) ∧
    (getResourcesForAPIServer nodeCount).1 ≠ "0m" ∧
    (getResourcesForAPIServer nodeCount).2.1 ≠ "0Mi" ∧
    (getResourcesForAPIServer nodeCount).2.2.1 ≠ "0m" ∧
    (getResourcesForAPIServer nodeCount).2.2.2 ≠ "0Mi" := by
  refine ⟨?_, ?_, ?_, ?_, ?_, ?_⟩
  · intro h
    simp [getResourcesForAPIServer, Id.run, h]
  · rintro ⟨h1, h2⟩
    have : ¬ nodeCount ≤ 2 := by omega
    simp [getResourcesForAPIServer, Id.run, this, h2]
  · rintro ⟨h1, h2⟩
    have a : ¬ nodeCount ≤ 2 := by omega
    have b : ¬ nodeCount ≤ 10 := by omega
    simp [getResourcesForAPIServer, Id.run, a, b, h2]
  · rintro ⟨h1, h2⟩
    have a : ¬ nodeCount ≤ 2 := by omega
    have b : ¬ nodeCount ≤ 10 := by omega
    have c : ¬ nodeCount ≤ 50 := by omega
    simp [getResourcesForAPIServer, Id.run, a, b, c, h2]
  · intro h
    have a : ¬ nodeCount ≤ 2 := by omega
    have b : ¬ nodeCount ≤ 10 := by omega
    have c : ¬ nodeCount ≤ 50 := by omega
    have d : ¬ nodeCount ≤ 100 := by omega
    simp [getResourcesForAPIServer, Id.run, a, b, c, d]
  · simp only [getResourcesForAPIServer, Id.run]
    split_ifs <;> simp

/-- Witness for C1: the node count 5 lies in the band 3..10. -/
theorem getResourcesForAPIServer_bands_witness :
    getResourcesForAPIServer 5 = ("1000m", "800Mi", "1200m", "1400Mi") :=
  (getResourcesForAPIServer_bands 5).2.1 ⟨by decide, by decide⟩

/-! ## Admission plugin merge -/

/-- C2: for every default list (duplicate names allowed) and every override list
with pairwise distinct names, the merge loop yields the defaults in which the
first default entry of an overridden name is replaced by the override, followed
by the overrides whose name is not among the defaults, in override order. -/
theorem mergeAdmissionPlugins_refines_spec (defaults overrides : List (AdmissionPlugin κ))
    (h : (pluginNames overrides).Nodup) :
    mergeAdmissionPlugins defaults overrides = specMerge defaults overrides :=
  merge_eq_spec defaults overrides h

/-- Witness for C2: defaults `[A,B,C]` and overrides `[B',D]` give `[A,B',C,D]`. -/
theorem mergeAdmissionPlugins_refines_spec_witness :
    (pluginNames [(⟨"B", 1⟩ : AdmissionPlugin Nat), ⟨"D", 1⟩]).Nodup ∧
    mergeAdmissionPlugins [(⟨"A", 0⟩ : AdmissionPlugin Nat), ⟨"B", 0⟩, ⟨"C", 0⟩]
        [⟨"B", 1⟩, ⟨"D", 1⟩] =
      specMerge [(⟨"A", 0⟩ : AdmissionPlugin Nat), ⟨"B", 0⟩, ⟨"C", 0⟩] [⟨"B", 1⟩, ⟨"D", 1⟩] ∧
    specMerge [(⟨"A", 0⟩ : AdmissionPlugin Nat), ⟨"B", 0⟩, ⟨"C", 0⟩] [⟨"B", 1⟩, ⟨"D", 1⟩] =
      [⟨"A", 0⟩, ⟨"B", 1⟩, ⟨"C", 0⟩, ⟨"D", 1⟩] :=
  ⟨by decide, mergeAdmissionPlugins_refines_spec _ _ (by decide), by decide⟩

/-- C7 as stated fails: with the empty default list and two overrides of one name,
the second override replaces the first instead of following it. -/
theorem empty_defaults_repeated_name_collapses :
    mergeAdmissionPlugins [] [(⟨"X", 1⟩ : AdmissionPlugin Nat), ⟨"X", 2⟩] = [⟨"X", 2⟩] ∧
    mergeAdmissionPlugins [] [(⟨"X", 1⟩ : AdmissionPlugin Nat), ⟨"X", 2⟩] ≠
      [⟨"X", 1⟩, ⟨"X", 2⟩] := by
  decide

/-- C7, amended: for every override list whose names are pairwise distinct, merging
it into the empty default list yields the override list unchanged. -/
theorem merge_empty_defaults (overrides : List (AdmissionPlugin κ))
    (h : (pluginNames overrides).Nodup) :
    mergeAdmissionPlugins [] overrides = overrides := by
  have := merge_append_of_nodup overrides [] (by simpa using h)
  simpa [mergeAdmissionPlugins] using this

/-- Witness for C7, amended. -/
theorem merge_empty_defaults_witness :
    (pluginNames [(⟨"X", 1⟩ : AdmissionPlugin Nat), ⟨"Y", 2⟩]).Nodup ∧
    mergeAdmissionPlugins [] [(⟨"X", 1⟩ : AdmissionPlugin Nat), ⟨"Y", 2⟩] =
      [⟨"X", 1⟩, ⟨"Y", 2⟩] :=
  ⟨by decide, merge_empty_defaults _ (by decide)⟩

/-- C8 as stated fails: merging a list that holds one name twice with itself
overwrites the first entry of that name with the last one. -/
theorem self_merge_repeated_name_overwrites :
    mergeAdmissionPlugins [(⟨"X", 1⟩ : AdmissionPlugin Nat), ⟨"X", 2⟩] [⟨"X", 1⟩, ⟨"X", 2⟩] =
      [⟨"X", 2⟩, ⟨"X", 2⟩] ∧
    mergeAdmissionPlugins [(⟨"X", 1⟩ : AdmissionPlugin Nat), ⟨"X", 2⟩] [⟨"X", 1⟩, ⟨"X", 2⟩] ≠
      [⟨"X", 1⟩, ⟨"X", 2⟩] := by
  decide

/-- C8, amended: for every plugin list whose names are pairwise distinct, merging
the list with itself yields the list. -/
theorem merge_idempotent_of_distinct_names (l : List (AdmissionPlugin κ)) (h : (pluginNames l).Nodup) :
    mergeAdmissionPlugins l l = l := by
  have := merge_self_of_nodup l [] (by simpa using h)
  simpa [mergeAdmissionPlugins] using this

/-- Witness for C8, amended. -/
theorem merge_idempotent_of_distinct_names_witness :
    (pluginNames [(⟨"X", 1⟩ : AdmissionPlugin Nat), ⟨"Y", 2⟩]).Nodup ∧
    mergeAdmissionPlugins [(⟨"X", 1⟩ : AdmissionPlugin Nat), ⟨"Y", 2⟩] [⟨"X", 1⟩, ⟨"Y", 2⟩] =
      [⟨"X", 1⟩, ⟨"Y", 2⟩] :=
  ⟨by decide, merge_idempotent_of_distinct_names _ (by decide)⟩

/-- C10: the merge never removes or reorders a default plugin: the merged list is
at least as long as the defaults, at most as long as defaults plus overrides, and
at every index below the length of the defaults the merged entry has the name of
the default at that index. -/
theorem merge_keeps_default_names (defaults overrides : List (AdmissionPlugin κ)) :
    defaults.length ≤ (mergeAdmissionPlugins defaults overrides).length ∧
    (mergeAdmissionPlugins defaults overrides).length ≤ defaults.length + overrides.length ∧
    ∀ i, i < defaults.length →
      ((mergeAdmissionPlugins defaults overrides)[i]?).map (fun p => p.Name) =
        (defaults[i]?).map (fun p => p.Name) := by
  refine ⟨(merge_length overrides defaults).1, (merge_length overrides defaults).2, ?_⟩
  intro i hi
  obtain ⟨t, ht⟩ := merge_names_extend overrides defaults
  have h1 : (pluginNames (mergeAdmissionPlugins defaults overrides))[i]? =
      (pluginNames defaults)[i]? := by
    simp only [mergeAdmissionPlugins]
    rw [← ht]
    exact List.getElem?_append_left (by simpa [pluginNames] using hi)
  simpa [pluginNames] using h1

/-- Witness for C10: index 1 of defaults `[A,B]` merged with overrides `[B',B'',D]`. -/
theorem merge_keeps_default_names_witness :
    ((mergeAdmissionPlugins [(⟨"A", 0⟩ : AdmissionPlugin Nat), ⟨"B", 0⟩]
        [⟨"B", 1⟩, ⟨"B", 2⟩, ⟨"D", 1⟩])[1]?).map (fun p => p.Name) =
      ([(⟨"A", 0⟩ : AdmissionPlugin Nat), ⟨"B", 0⟩][1]?).map (fun p => p.Name) :=
  (merge_keeps_default_names _ _).2.2 1 (by decide)

/-! ## Etcd roles -/

theorem deployEtcdRoles_out (c : Common κ) (b : HybridBotanist κ) (etcd : Values κ)
    (happly : ∀ path name ns dv v, b.ApplyChartSeed path name ns dv v = none)
    (hdelete : ∀ ns name e, b.DeleteService ns name = some e → e.isNotFound = true)
    (roles : List String) :
    (deployEtcdRoles c b etcd roles).out = .ok () := by
  induction roles generalizing etcd with
  | nil => rfl
  | cons role roles ih =>
    simp only [deployEtcdRoles, Run.bind_eq, Run.bind, Run.checkErr, happly, Run.call]
    cases hd : b.DeleteService b.SeedNamespace ("etcd-" ++ role) with
    | none => simp [ih]
    | some e => simp [hdelete _ _ e hd, ih]

/-- The map an iteration of the role loop passes to the chart apply. -/
theorem deployEtcdRoles_cons (c : Common κ) (b : HybridBotanist κ) (etcd : Values κ)
    (happly : ∀ path name ns dv v, b.ApplyChartSeed path name ns dv v = none)
    (hdelete : ∀ ns name e, b.DeleteService ns name = some e → e.isNotFound = true)
    (role : String) (roles : List String) :
    (deployEtcdRoles c b etcd (role :: roles)).calls =
      Call.applyChartSeed (c.Join [c.chartPathControlPlane, "etcd"]) ("etcd-" ++ role)
          b.SeedNamespace []
          (if role = c.EtcdRoleEvents then
            (etcd.set "role" (.str role)).set "backup" (.obj [("storageProvider", .str "")])
           else etcd.set "role" (.str role)) ::
        Call.deleteService b.SeedNamespace ("etcd-" ++ role) ::
        (deployEtcdRoles c b
          (if role = c.EtcdRoleEvents then
            (etcd.set "role" (.str role)).set "backup" (.obj [("storageProvider", .str "")])
           else etcd.set "role" (.str role)) roles).calls := by
  simp only [deployEtcdRoles, Run.bind_eq, Run.bind, Run.checkErr, happly, Run.call]
  cases hd : b.DeleteService b.SeedNamespace ("etcd-" ++ role) with
  | none => simp
  | some e => simp [hdelete _ _ e hd]

theorem string_append_left_inj (p a b : String) : p ++ a = p ++ b ↔ a = b := by
  constructor
  · intro h
    have h2 := congrArg String.data h
    simp only [String.data_append] at h2
    exact String.ext (List.append_cancel_left h2)
  · intro h; rw [h]

theorem deployEtcdRoles_applied (c : Common κ) (b : HybridBotanist κ)
    (happly : ∀ path name ns dv v, b.ApplyChartSeed path name ns dv v = none)
    (hdelete : ∀ ns name e, b.DeleteService ns name = some e → e.isNotFound = true)
    (roles : List String) (etcd : Values κ) :
    (c.EtcdRoleEvents ∈ roles →
      appliedTo ("etcd-" ++ c.EtcdRoleEvents) (deployEtcdRoles c b etcd roles).calls ≠ []) ∧
    ∀ p ∈ appliedTo ("etcd-" ++ c.EtcdRoleEvents) (deployEtcdRoles c b etcd roles).calls,
      p.get "role" = some (.str c.EtcdRoleEvents) ∧
      p.get "backup" = some (.obj [("storageProvider", .str "")]) := by
  induction roles generalizing etcd with
  | nil => 
    constructor
    · intro h; simp at h
    · intro p hp
      simp [deployEtcdRoles, Run.pure_eq, Run.pure, appliedTo] at hp
  | cons role roles ih =>
    rw [deployEtcdRoles_cons c b etcd happly hdelete]
    by_cases hr : role = c.EtcdRoleEvents
    · subst hr
      simp only [appliedTo, if_true]
      refine ⟨fun _ => by simp, ?_⟩
      intro p hp
      rcases List.mem_cons.1 hp with h | h
      · subst h
        refine ⟨?_, Values.get_set_self _ _ _⟩
        rw [Values.get_set_ne _ _ _ _ (by decide)]
        exact Values.get_set_self _ _ _
      · exact (ih _).2 p h
    · have hn : ¬ ("etcd-" ++ role = "etcd-" ++ c.EtcdRoleEvents) := by
        rw [string_append_left_inj]; exact hr
      simp only [appliedTo, hn, hr, if_false]
      refine ⟨fun hm => (ih _).1 ?_, fun p hp => (ih _).2 p hp⟩
      rcases List.mem_cons.1 hm with h | h
      · exact absurd h.symm hr
      · exact h

/-- C4: whatever backup configuration `GenerateEtcdBackupConfig` returns and
whatever map `InjectImages` returns, when the collaborator calls succeed the chart
apply for the release of the events role is called, and every map passed to it has
`role` set to the events role and `backup` equal to the map that only holds an
empty `storageProvider`. -/
theorem DeployETCD_events_backup_disabled (c : Common κ) (b : HybridBotanist κ)
    (secretData : Option (List (String × String))) (backupConfigData : Option (Values κ))
    (inject : Values κ → Values κ)
    (hgen : b.GenerateEtcdBackupConfig = .ok (secretData, backupConfigData))
    (hsecret : ∀ ns name data, b.CreateSecret ns name data = none)
    (hinject : ∀ values version images, b.InjectImages values version images = .ok (inject values))
    (happly : ∀ path name ns dv v, b.ApplyChartSeed path name ns dv v = none)
    (hdelete : ∀ ns name e, b.DeleteService ns name = some e → e.isNotFound = true) :
    (DeployETCD c b).out = .ok () ∧
    appliedTo ("etcd-" ++ c.EtcdRoleEvents) (DeployETCD c b).calls ≠ [] ∧
    ∀ p ∈ appliedTo ("etcd-" ++ c.EtcdRoleEvents) (DeployETCD c b).calls,
      p.get "role" = some (.str c.EtcdRoleEvents) ∧
      p.get "backup" = some (.obj [("storageProvider", .str "")]) := by
  have hroles := fun etcd => deployEtcdRoles_applied c b happly hdelete
    [c.EtcdRoleMain, c.EtcdRoleEvents] etcd
  have hout := fun etcd => deployEtcdRoles_out c b etcd happly hdelete
    [c.EtcdRoleMain, c.EtcdRoleEvents]
  cases secretData <;>
  · simp only [DeployETCD, Run.bind_eq, Run.pure_eq, Run.bind, Run.pure, Run.check, Run.checkErr,
      hgen, hsecret, hinject, hout, List.nil_append, List.cons_append, appliedTo]
    exact ⟨trivial, (hroles _).1 (by simp), (hroles _).2⟩

/-! ## Replica decision -/

/-- The API server configuration part writes four keys and leaves the rest. -/
theorem apiServerConfigValues_get (c : Common κ) (b : HybridBotanist κ) (dv : Values κ)
    (k : String) (h1 : k ≠ "featureGates") (h2 : k ≠ "runtimeConfig") (h3 : k ≠ "oidcConfig")
    (h4 : k ≠ "admissionPlugins") :
    (apiServerConfigValues c b dv).get k = dv.get k := by
  unfold apiServerConfigValues
  cases b.KubeAPIServer with
  | none => simp [Values.get_set_ne _ _ _ _ h4]
  | some cfg =>
    cases ho : cfg.OIDCConfig <;>
      simp [ho, Values.get_set_ne _ _ _ _ h4, Values.get_set_ne _ _ _ _ h3,
        Values.get_set_ne _ _ _ _ h2, Values.get_set_ne _ _ _ _ h1]

theorem injected_append (xs ys : List (Call κ)) :
    injected (xs ++ ys) = injected xs ++ injected ys := by
  induction xs with
  | nil => rfl
  | cons x xs ih => cases x <;> simp [injected, ih]

/-- Once the name resolves, the cloud values are generated and the replica part
returns, `DeployKubeAPIServer` hands exactly one map to `InjectImages`. -/
theorem DeployKubeAPIServer_injected (c : Common κ) (b : HybridBotanist κ) (ip : String)
    (cloud dv : Values κ) (calls : List (Call κ))
    (hdns : b.WaitUntilDNSNameResolvable b.APIServerAddress = .ok ip)
    (hcloud : b.GenerateKubeAPIServerConfig = .ok cloud)
    (hrep : apiServerReplicas c b (apiServerDefaultValues c b) = ⟨calls, .ok dv⟩)
    (hnoinj : injected calls = []) :
    injected (DeployKubeAPIServer c b).calls = [apiServerConfigValues c b dv] := by
  simp only [DeployKubeAPIServer, Run.bind_eq, Run.bind, Run.check, Run.call, hdns, hcloud, hrep]
  cases hi : b.InjectImages (apiServerConfigValues c b dv) b.SeedVersion
      [("hyperkube", "hyperkube"), ("vpn-seed", "vpn-seed"),
        ("blackbox-exporter", "blackbox-exporter")] with
  | error e => simp [injected, injected_append, hnoinj]
  | ok v =>
    cases ha : b.ApplyChartSeed (c.Join [c.chartPathControlPlane, c.KubeAPIServerDeploymentName])
        c.KubeAPIServerDeploymentName b.SeedNamespace v cloud <;>
      simp [Run.checkErr, ha, injected, injected_append, hnoinj]

theorem apiServerReplicas_static (c : Common κ) (b : HybridBotanist κ) (dv : Values κ)
    (s : ShootedSeed) (r m : Int) (hs : b.ShootedSeed = some s)
    (hr : s.APIServer.Replicas = some r) (hm : s.APIServer.Autoscaler.MinReplicas = some m) :
    apiServerReplicas c b dv =
      ⟨[], .ok ((((dv.set "replicas" (.int r)).set "minReplicas" (.int m)).set "maxReplicas"
        (.int s.APIServer.Autoscaler.MaxReplicas)).set "apiServerResources"
        (.obj [("limits", .obj [("cpu", .str "1500m"), ("memory", .str "4000Mi")])]))⟩ := by
  simp [apiServerReplicas, hs, hr, hm, Run.deref, Run.bind_eq, Run.bind, Run.pure_eq, Run.pure]

/-- What the branch without a shooted seed leaves in `replicas`. -/
theorem apiServerReplicas_live (c : Common κ) (b : HybridBotanist κ) (dv : Values κ)
    (hs : b.ShootedSeed = none) :
    ∃ dv2, apiServerReplicas c b dv =
        ⟨[.getDeployment b.SeedNamespace c.KubeAPIServerDeploymentName], .ok dv2⟩ ∧
      (∀ k, k ≠ "replicas" → k ≠ "apiServerResources" → dv2.get k = dv.get k) ∧
      (∀ d n, b.GetDeployment b.SeedNamespace c.KubeAPIServerDeploymentName = .ok d →
        d.SpecReplicas = some n → 0 < n → dv2.get "replicas" = some (.int n)) ∧
      ((¬ ∃ d n, b.GetDeployment b.SeedNamespace c.KubeAPIServerDeploymentName = .ok d ∧
          d.SpecReplicas = some n ∧ 0 < n) → dv2.get "replicas" = dv.get "replicas") := by
  have hne : ("replicas" : String) ≠ "apiServerResources" := by decide
  simp only [apiServerReplicas, hs, Run.bind_eq, Run.bind, Run.call, Run.pure_eq, Run.pure,
    List.append_nil]
  refine ⟨_, rfl, ?_, ?_, ?_⟩
  · intro k h1 h2
    rw [Values.get_set_ne _ _ _ _ h2]
    cases b.GetDeployment b.SeedNamespace c.KubeAPIServerDeploymentName with
    | error e => rfl
    | ok d =>
      cases hd : d.SpecReplicas with
      | none => simp [hd]
      | some n =>
        by_cases hn : n > 0
        · simp [hd, hn, Values.get_set_ne _ _ _ _ h1]
        · simp [hd, hn]
  · intro d n hg hd hn
    rw [Values.get_set_ne _ _ _ _ hne]
    simp [hg, hd, hn]
  · intro hno
    rw [Values.get_set_ne _ _ _ _ hne]
    cases hg : b.GetDeployment b.SeedNamespace c.KubeAPIServerDeploymentName with
    | error e => rfl
    | ok d =>
      cases hd : d.SpecReplicas with
      | none => simp [hd]
      | some n =>
        by_cases hn : n > 0
        · exact absurd ⟨d, n, hg, hd, hn⟩ hno
        · simp [hd, hn]

/-- C3, amended: once the name resolves and the cloud values are generated,
`DeployKubeAPIServer` hands one map to `InjectImages`. With a shooted seed whose
`Replicas` and `MinReplicas` are set, its `replicas`, `minReplicas` and
`maxReplicas` are the static values whatever the live deployment is. Without a
shooted seed, `replicas` is the live count when the read succeeds with a count that
is present and positive and is absent otherwise, `minReplicas` is absent and
`maxReplicas` is 3. -/
theorem DeployKubeAPIServer_replicas (c : Common κ) (b : HybridBotanist κ) (ip : String)
    (cloud : Values κ)
    (hdns : b.WaitUntilDNSNameResolvable b.APIServerAddress = .ok ip)
    (hcloud : b.GenerateKubeAPIServerConfig = .ok cloud) :
    (∀ s r m, b.ShootedSeed = some s → s.APIServer.Replicas = some r →
      s.APIServer.Autoscaler.MinReplicas = some m →
      ∃ p, injected (DeployKubeAPIServer c b).calls = [p] ∧
        p.get "replicas" = some (.int r) ∧
        p.get "minReplicas" = some (.int m) ∧
        p.get "maxReplicas" = some (.int s.APIServer.Autoscaler.MaxReplicas)) ∧
    (b.ShootedSeed = none →
      ∃ p, injected (DeployKubeAPIServer c b).calls = [p] ∧
        (∀ d n, b.GetDeployment b.SeedNamespace c.KubeAPIServerDeploymentName = .ok d →
          d.SpecReplicas = some n → 0 < n → p.get "replicas" = some (.int n)) ∧
        ((¬ ∃ d n, b.GetDeployment b.SeedNamespace c.KubeAPIServerDeploymentName = .ok d ∧
            d.SpecReplicas = some n ∧ 0 < n) → p.get "replicas" = none) ∧
        p.get "minReplicas" = none ∧
        p.get "maxReplicas" = some (.int 3)) := by
  constructor
  · intro s r m hs hr hm
    refine ⟨_, DeployKubeAPIServer_injected c b ip cloud _ _ hdns hcloud
      (apiServerReplicas_static c b _ s r m hs hr hm) rfl, ?_, ?_, ?_⟩
    · rw [apiServerConfigValues_get c b _ _ (by decide) (by decide) (by decide) (by decide)]
      rw [Values.get_set_ne _ _ _ _ (by decide), Values.get_set_ne _ _ _ _ (by decide),
        Values.get_set_ne _ _ _ _ (by decide)]
      exact Values.get_set_self _ _ _
    · rw [apiServerConfigValues_get c b _ _ (by decide) (by decide) (by decide) (by decide)]
      rw [Values.get_set_ne _ _ _ _ (by decide), Values.get_set_ne _ _ _ _ (by decide)]
      exact Values.get_set_self _ _ _
    · rw [apiServerConfigValues_get c b _ _ (by decide) (by decide) (by decide) (by decide)]
      rw [Values.get_set_ne _ _ _ _ (by decide)]
      exact Values.get_set_self _ _ _
  · intro hs
    obtain ⟨dv2, hrep, hkeep, hlive, hnone⟩ :=
      apiServerReplicas_live c b (apiServerDefaultValues c b) hs
    refine ⟨_, DeployKubeAPIServer_injected c b ip cloud dv2 _ hdns hcloud hrep rfl,
      ?_, ?_, ?_, ?_⟩
    · intro d n hg hd hn
      rw [apiServerConfigValues_get c b _ _ (by decide) (by decide) (by decide) (by decide)]
      exact hlive d n hg hd hn
    · intro hno
      rw [apiServerConfigValues_get c b _ _ (by decide) (by decide) (by decide) (by decide)]
      rw [hnone hno]
      simp [apiServerDefaultValues, Values.get, List.lookup]
    · rw [apiServerConfigValues_get c b _ _ (by decide) (by decide) (by decide) (by decide)]
      rw [hkeep _ (by decide) (by decide)]
      simp [apiServerDefaultValues, Values.get, List.lookup]
    · rw [apiServerConfigValues_get c b _ _ (by decide) (by decide) (by decide) (by decide)]
      rw [hkeep _ (by decide) (by decide)]
      simp [apiServerDefaultValues, Values.get, List.lookup]

/-- Witness for C3, amended: static replicas 2, minimum 2, maximum 4 give that
triple; five live replicas without a shooted seed give `replicas` 5. -/
theorem DeployKubeAPIServer_replicas_witness :
    (∃ p, injected (DeployKubeAPIServer sampleCommon staticBotanist).calls = [p] ∧
      p.get "replicas" = some (.int 2) ∧ p.get "minReplicas" = some (.int 2) ∧
      p.get "maxReplicas" = some (.int 4)) ∧
    (∃ p, injected (DeployKubeAPIServer sampleCommon sampleBotanist).calls = [p] ∧
      p.get "replicas" = some (.int 5) ∧ p.get "minReplicas" = none ∧
      p.get "maxReplicas" = some (.int 3)) := by
  constructor
  · exact (DeployKubeAPIServer_replicas sampleCommon staticBotanist "192.0.2.1" [] rfl rfl).1
      ⟨⟨some 2, ⟨some 2, 4⟩⟩⟩ 2 2 rfl rfl rfl
  · obtain ⟨p, hp, hlive, _, hmin, hmax⟩ :=
      (DeployKubeAPIServer_replicas sampleCommon sampleBotanist "192.0.2.1" [] rfl rfl).2 rfl
    exact ⟨p, hp, hlive ⟨some 5⟩ 5 rfl rfl (by decide), hmin, hmax⟩

/-- C3 as stated fails: a shooted seed whose `Replicas` pointer is nil is not
centrally autoscaled in the sense of the claim, yet no map with `maxReplicas` 3 is
synthesized: the dereference panics before `InjectImages` is reached. -/
theorem DeployKubeAPIServer_nil_replicas_panics :
    (nilReplicasBotanist.ShootedSeed.bind (fun s => s.APIServer.Replicas)) = none ∧
    (DeployKubeAPIServer sampleCommon nilReplicasBotanist).out = .error .panicked ∧
    ¬ ∃ p, p ∈ injected (DeployKubeAPIServer sampleCommon nilReplicasBotanist).calls ∧
      p.get "maxReplicas" = some (.int 3) := by
  refine ⟨rfl, rfl, ?_⟩
  have h : injected (DeployKubeAPIServer sampleCommon nilReplicasBotanist).calls = [] := rfl
  rw [h]
  simp

/-- Witness for C4: the backup configuration is enabled and `InjectImages` returns
its argument; the release is `etcd-events` and the role `events`. -/
theorem DeployETCD_events_backup_disabled_witness :
    (DeployETCD sampleCommon sampleBotanist).out = .ok () ∧
    appliedTo "etcd-events" (DeployETCD sampleCommon sampleBotanist).calls ≠ [] ∧
    ∀ p ∈ appliedTo "etcd-events" (DeployETCD sampleCommon sampleBotanist).calls,
      p.get "role" = some (.str "events") ∧
      p.get "backup" = some (.obj [("storageProvider", .str "")]) :=
  DeployETCD_events_backup_disabled sampleCommon sampleBotanist
    (some [("accessKey", "k")]) (some [("storageProvider", .str "S3")]) (fun values => values)
    rfl (fun _ _ _ => rfl) (fun _ _ _ => rfl) (fun _ _ _ _ _ => rfl)
    (fun _ _ e h => by cases h; rfl)

/-! ## Reading the live deployment -/

/-- C6, the code at the failing input: without a shooted seed, reading the live
deployment fails with an error that is not a not-found error; the error has to be
returned and the chart apply must not be called, yet `DeployKubeAPIServer` returns
nil and the chart apply is called. -/
theorem DeployKubeAPIServer_read_failure_not_propagated :
    readFailureBotanist.ShootedSeed = none ∧
    readFailureBotanist.GetDeployment readFailureBotanist.SeedNamespace
      sampleCommon.KubeAPIServerDeploymentName = .error ⟨"connection refused", false⟩ ∧
    (DeployKubeAPIServer sampleCommon readFailureBotanist).out = .ok () ∧
    calledApply (DeployKubeAPIServer sampleCommon readFailureBotanist).calls = true :=
  ⟨rfl, rfl, rfl, rfl⟩

/-- The dropped error in general: without a shooted seed, after any failure of
reading the live deployment, not-found or not, the map handed to `InjectImages`
has no `replicas` key, and when `InjectImages` succeeds the chart apply is called
and its answer is what `DeployKubeAPIServer` returns. Lines 226-229 test the error
only with `err == nil`, where lines 119 and 146-152 return every error that is not
a not-found error. -/
theorem DeployKubeAPIServer_read_failure_ignored (c : Common κ) (b : HybridBotanist κ)
    (ip : String) (cloud : Values κ) (e : GoError)
    (hdns : b.WaitUntilDNSNameResolvable b.APIServerAddress = .ok ip)
    (hcloud : b.GenerateKubeAPIServerConfig = .ok cloud)
    (hs : b.ShootedSeed = none)
    (hget : b.GetDeployment b.SeedNamespace c.KubeAPIServerDeploymentName = .error e) :
    ∃ p, injected (DeployKubeAPIServer c b).calls = [p] ∧
      p.get "replicas" = none ∧
      ∀ v, b.InjectImages p b.SeedVersion [("hyperkube", "hyperkube"), ("vpn-seed", "vpn-seed"),
          ("blackbox-exporter", "blackbox-exporter")] = .ok v →
        calledApply (DeployKubeAPIServer c b).calls = true ∧
        (DeployKubeAPIServer c b).out =
          (match b.ApplyChartSeed (c.Join [c.chartPathControlPlane, c.KubeAPIServerDeploymentName])
              c.KubeAPIServerDeploymentName b.SeedNamespace v cloud with
            | none => .ok ()
            | some err => .error (.returned err)) := by
  obtain ⟨dv2, hrep, _, _, hnone⟩ :=
    apiServerReplicas_live c b (apiServerDefaultValues c b) hs
  refine ⟨_, DeployKubeAPIServer_injected c b ip cloud dv2 _ hdns hcloud hrep rfl, ?_, ?_⟩
  · rw [apiServerConfigValues_get c b _ _ (by decide) (by decide) (by decide) (by decide)]
    rw [hnone (by simp [hget])]
    simp [apiServerDefaultValues, Values.get, List.lookup]
  · intro v hv
    simp only [DeployKubeAPIServer, Run.bind_eq, Run.bind, Run.check, Run.call, hdns, hcloud,
      hrep, hv]
    cases b.ApplyChartSeed (c.Join [c.chartPathControlPlane, c.KubeAPIServerDeploymentName])
        c.KubeAPIServerDeploymentName b.SeedNamespace v cloud <;>
      simp [Run.checkErr, calledApply]

/-! ## Checksum annotations -/

theorem Run.bind_check_calls {α β : Type} (call : Call κ) (answer : Except GoError α)
    (f : α → Run κ β) :
    (Run.bind (Run.check call answer) f).calls =
      call :: (match answer with
        | .ok a => (f a).calls
        | .error _ => []) := by
  cases answer <;> simp [Run.bind, Run.check]

theorem Run.bind_checkErr_calls {β : Type} (call : Call κ) (answer : Option GoError)
    (f : Unit → Run κ β) :
    (Run.bind (Run.checkErr call answer) f).calls =
      call :: (match answer with
        | none => (f ()).calls
        | some _ => []) := by
  cases answer <;> simp [Run.bind, Run.checkErr]

theorem Run.bind_call_calls {α β : Type} (call : Call κ) (answer : α) (f : α → Run κ β) :
    (Run.bind (Run.call call answer) f).calls = call :: (f answer).calls := by
  simp [Run.bind, Run.call]

theorem Run.bind_pure {α β : Type} (a : α) (f : α → Run κ β) :
    Run.bind (Run.pure a) f = f a := by
  simp [Run.bind, Run.pure]

theorem Run.check_calls {α : Type} (call : Call κ) (answer : Except GoError α) :
    (Run.check call answer).calls = [call] := by
  cases answer <;> rfl

theorem Run.bind_calls {α β : Type} (x : Run κ α) (f : α → Run κ β) :
    (Run.bind x f).calls =
      x.calls ++ (match x.out with
        | .ok a => (f a).calls
        | .error _ => []) := by
  unfold Run.bind
  cases x.out <;> simp

theorem synthesized_kubeScheduler (c : Common κ) (b : HybridBotanist κ) (cs : CheckSums) :
    (synthesized c { b with CheckSums := cs } .kubeScheduler).isSome =
      (synthesized c b .kubeScheduler).isSome ∧
    ∀ p, synthesized c b .kubeScheduler = some p →
      p.get "podAnnotations" = some (podAnnotations c b.CheckSums .kubeScheduler) := by
  simp only [synthesized, deploy, DeployKubeScheduler, Run.bind_eq, Run.bind_check_calls]
  cases b.GenerateKubeSchedulerConfig with
  | error e => simp [injected]
  | ok cloud =>
    simp only [injected, List.head?_cons, Option.isSome_some, Option.some.injEq, true_and]
    intro p hp
    subst hp
    cases b.ShootedSeed <;> cases b.KubeSchedulerFeatureGates <;>
      simp [Values.get_set_ne, Values.get, List.lookup]

theorem synthesized_kubeControllerManager (c : Common κ) (b : HybridBotanist κ)
    (cs : CheckSums) :
    (synthesized c { b with CheckSums := cs } .kubeControllerManager).isSome =
      (synthesized c b .kubeControllerManager).isSome ∧
    ∀ p, synthesized c b .kubeControllerManager = some p →
      p.get "podAnnotations" = some (podAnnotations c b.CheckSums .kubeControllerManager) := by
  simp only [synthesized, deploy, DeployKubeControllerManager, Run.bind_eq,
    Run.bind_check_calls]
  cases b.GenerateKubeControllerManagerConfig with
  | error e => simp [injected]
  | ok cloud =>
    simp only [injected, List.head?_cons, Option.isSome_some, Option.some.injEq, true_and]
    intro p hp
    subst hp
    cases b.ShootedSeed <;> cases b.KubeControllerManagerFeatureGates <;>
      simp [Values.get_set_ne, Values.get, List.lookup]

theorem synthesized_cloudControllerManager (c : Common κ) (b : HybridBotanist κ)
    (cs : CheckSums) :
    (synthesized c { b with CheckSums := cs } .cloudControllerManager).isSome =
      (synthesized c b .cloudControllerManager).isSome ∧
    ∀ p, synthesized c b .cloudControllerManager = some p →
      p.get "podAnnotations" = some (podAnnotations c b.CheckSums .cloudControllerManager) := by
  simp only [synthesized, deploy, DeployCloudControllerManager, Run.bind_eq,
    Run.bind_check_calls]
  cases b.GenerateCloudControllerManagerConfig with
  | error e => simp [injected]
  | ok cloud =>
    simp only [injected, List.head?_cons, Option.isSome_some, Option.some.injEq, true_and]
    intro p hp
    subst hp
    cases b.ShootedSeed <;> cases b.CloudControllerManagerFeatureGates <;>
      simp [Values.get_set_ne, Values.get, List.lookup]

theorem synthesized_etcd (c : Common κ) (b : HybridBotanist κ) (cs : CheckSums) :
    (synthesized c { b with CheckSums := cs } .etcd).isSome =
      (synthesized c b .etcd).isSome ∧
    ∀ p, synthesized c b .etcd = some p →
      p.get "podAnnotations" = some (podAnnotations c b.CheckSums .etcd) := by
  simp only [synthesized, deploy, DeployETCD, Run.bind_eq, Run.bind_check_calls, Run.pure_eq]
  cases b.GenerateEtcdBackupConfig with
  | error e => simp [injected]
  | ok answer =>
    obtain ⟨secretData, backupConfigData⟩ := answer
    cases secretData with
    | none =>
      simp only [Run.bind_pure, Run.bind_check_calls, injected, List.head?_cons,
        Option.isSome_some, Option.some.injEq, true_and]
      intro p hp
      subst hp
      cases backupConfigData <;> simp [Values.get_set_ne, Values.get, List.lookup]
    | some data =>
      simp only [Run.bind_checkErr_calls, injected]
      cases b.CreateSecret b.SeedNamespace c.BackupSecretName data with
      | some e => simp [injected]
      | none =>
        simp only [Run.bind_check_calls, injected, List.head?_cons,
          Option.isSome_some, Option.some.injEq, true_and]
        intro p hp
        subst hp
        cases backupConfigData <;> simp [Values.get_set_ne, Values.get, List.lookup]

theorem synthesized_kubeAPIServer_reach (c : Common κ) (b : HybridBotanist κ) :
    (synthesized c b .kubeAPIServer).isSome =
      ((b.WaitUntilDNSNameResolvable b.APIServerAddress).isOk &&
        (b.GenerateKubeAPIServerConfig.isOk &&
          (match b.ShootedSeed with
            | none => true
            | some s => s.APIServer.Replicas.isSome && s.APIServer.Autoscaler.MinReplicas.isSome))) ∧
    ∀ p, synthesized c b .kubeAPIServer = some p →
      p.get "podAnnotations" = some (podAnnotations c b.CheckSums .kubeAPIServer) := by
  have hpa : (apiServerDefaultValues c b).get "podAnnotations" =
      some (podAnnotations c b.CheckSums .kubeAPIServer) := by
    simp [apiServerDefaultValues, Values.get, List.lookup]
  simp only [synthesized, deploy, DeployKubeAPIServer, Run.bind_eq, Run.bind_check_calls,
    Run.bind_call_calls]
  cases b.WaitUntilDNSNameResolvable b.APIServerAddress with
  | error e => simp [injected, Except.isOk, Except.toBool]
  | ok ip =>
    simp only [injected]
    cases b.GenerateKubeAPIServerConfig with
    | error e => simp [injected, Except.isOk, Except.toBool]
    | ok cloud =>
      simp only [injected, Run.bind_calls, injected_append, Run.bind_check_calls]
      cases hs : b.ShootedSeed with
      | none =>
        obtain ⟨dv2, hrep2, hkeep, _⟩ := apiServerReplicas_live c b
          (apiServerDefaultValues c b) hs
        simp only [hrep2, injected, List.nil_append, List.head?_cons, Run.check_calls,
          List.cons_append, Option.isSome_some, Option.some.injEq, Except.isOk, Except.toBool,
          Bool.and_self, true_and]
        intro p hp
        subst hp
        rw [apiServerConfigValues_get c b _ _ (by decide) (by decide) (by decide) (by decide),
          hkeep _ (by decide) (by decide)]
        exact hpa
      | some s =>
        cases hr : s.APIServer.Replicas with
        | none =>
          simp [apiServerReplicas, hs, hr, Run.deref, Run.bind_eq, Run.bind, injected]
        | some r =>
          cases hm : s.APIServer.Autoscaler.MinReplicas with
          | none =>
            simp [apiServerReplicas, hs, hr, hm, Run.deref, Run.bind_eq, Run.bind, injected]
          | some m =>
            have hrep2 := apiServerReplicas_static c b (apiServerDefaultValues c b) s r m hs hr hm
            simp only [hrep2, injected, List.nil_append, List.head?_cons, Run.check_calls,
              List.cons_append, Option.isSome_some, Option.some.injEq, Except.isOk,
              Except.toBool, Bool.and_self, true_and, hr, hm]
            intro p hp
            subst hp
            rw [apiServerConfigValues_get c b _ _ (by decide) (by decide) (by decide) (by decide),
              Values.get_set_ne _ _ _ _ (by decide), Values.get_set_ne _ _ _ _ (by decide),
              Values.get_set_ne _ _ _ _ (by decide), Values.get_set_ne _ _ _ _ (by decide)]
            exact hpa

theorem synthesized_kubeAPIServer (c : Common κ) (b : HybridBotanist κ) (cs : CheckSums) :
    (synthesized c { b with CheckSums := cs } .kubeAPIServer).isSome =
      (synthesized c b .kubeAPIServer).isSome ∧
    ∀ p, synthesized c b .kubeAPIServer = some p →
      p.get "podAnnotations" = some (podAnnotations c b.CheckSums .kubeAPIServer) :=
  ⟨(synthesized_kubeAPIServer_reach c { b with CheckSums := cs }).1.trans
    (synthesized_kubeAPIServer_reach c b).1.symm, (synthesized_kubeAPIServer_reach c b).2⟩

/-- Whether a component reaches `InjectImages` does not depend on the checksum
map, and the map it hands over carries the component's `podAnnotations`. -/
theorem synthesized_shape (c : Common κ) (b : HybridBotanist κ) (cs : CheckSums)
    (comp : Component) :
    (synthesized c { b with CheckSums := cs } comp).isSome = (synthesized c b comp).isSome ∧
    ∀ p, synthesized c b comp = some p →
      p.get "podAnnotations" = some (podAnnotations c b.CheckSums comp) := by
  cases comp
  · exact synthesized_etcd c b cs
  · exact synthesized_kubeAPIServer c b cs
  · exact synthesized_kubeControllerManager c b cs
  · exact synthesized_cloudControllerManager c b cs
  · exact synthesized_kubeScheduler c b cs

theorem lookup_map_index (cs : CheckSums) (a : String) (rows : List (String × String)) :
    List.lookup a (rows.map (fun row => (row.1, (Value.str (cs.index row.2) : Value κ)))) =
      (List.lookup a rows).map (fun k => Value.str (cs.index k)) := by
  induction rows with
  | nil => rfl
  | cons row rows ih =>
    obtain ⟨a2, k2⟩ := row
    by_cases h : a = a2
    · subst h
      simp [List.lookup]
    · have hb : (a == a2) = false := by simpa using h
      simp [List.lookup, hb, ih]

theorem mem_iff_lookup (a k : String) (rows : List (String × String))
    (hn : (rows.map Prod.fst).Nodup) : (a, k) ∈ rows ↔ List.lookup a rows = some k := by
  induction rows with
  | nil => simp [List.lookup]
  | cons row rows ih =>
    obtain ⟨a2, k2⟩ := row
    simp only [List.map_cons, List.nodup_cons] at hn
    by_cases ha : a = a2
    · subst ha
      have hnot : (a, k) ∉ rows := fun hm => hn.1 (List.mem_map.2 ⟨(a, k), hm, rfl⟩)
      simp [List.lookup, hnot, eq_comm]
    · have hb : (a == a2) = false := by simpa using ha
      simp [List.lookup, hb, ha, ih hn.2]

/-- The annotation keys of a literal are pairwise distinct. -/
theorem podAnnotationSources_nodup (c : Common κ) (comp : Component) :
    ((podAnnotationSources c comp).map Prod.fst).Nodup := by
  cases comp <;> simp only [podAnnotationSources, List.map_cons, List.map_nil] <;> decide

/-- The annotation of a payload that carries a component's `podAnnotations`. -/
theorem annotationAt_of_podAnnotations (c : Common κ) (cs : CheckSums) (comp : Component)
    (p : Values κ) (a : String)
    (h : p.get "podAnnotations" = some (podAnnotations c cs comp)) :
    annotationAt p a =
      (List.lookup a (podAnnotationSources c comp)).map (fun k => Value.str (cs.index k)) := by
  simp only [annotationAt, h, podAnnotations]
  exact lookup_map_index cs a _

/-- The frame property in terms of the values read: when the values read from two
checksum maps (a missing entry reads as the empty string) differ at exactly one
artifact name, the `podAnnotations` maps a component synthesizes from them differ
at exactly the annotation keys whose value is read from that name. -/
theorem podAnnotations_frame_of_read (c : Common κ) (b : HybridBotanist κ) (comp : Component)
    (cs2 : CheckSums) (k : String) (p1 : Values κ)
    (hdiff : b.CheckSums.index k ≠ cs2.index k)
    (hsame : ∀ j, j ≠ k → b.CheckSums.index j = cs2.index j)
    (h1 : synthesized c b comp = some p1) :
    ∃ p2, synthesized c { b with CheckSums := cs2 } comp = some p2 ∧
      ∀ a, annotationAt p1 a ≠ annotationAt p2 a ↔ (a, k) ∈ podAnnotationSources c comp := by
  have hsome : (synthesized c { b with CheckSums := cs2 } comp).isSome = true := by
    rw [(synthesized_shape c b cs2 comp).1, h1]; rfl
  obtain ⟨p2, h2⟩ := Option.isSome_iff_exists.1 hsome
  refine ⟨p2, h2, fun a => ?_⟩
  have e1 := annotationAt_of_podAnnotations c b.CheckSums comp p1 a
    ((synthesized_shape c b cs2 comp).2 p1 h1)
  have e2 := annotationAt_of_podAnnotations c cs2 comp p2 a
    ((synthesized_shape c { b with CheckSums := cs2 } cs2 comp).2 p2 h2)
  rw [e1, e2, mem_iff_lookup a k _ (podAnnotationSources_nodup c comp)]
  cases hl : List.lookup a (podAnnotationSources c comp) with
  | none => simp
  | some k2 =>
    by_cases hk : k2 = k
    · subst hk
      simp only [Option.map_some', ne_eq, Option.some.injEq, Value.str.injEq, iff_true]
      exact hdiff
    · simp [hk, hsame k2 hk]

/-- Two checksum maps of digests that differ at a name read differently there. -/
theorem index_ne_of_digests (cs1 cs2 : CheckSums) (k : String)
    (hd1 : cs1.Digests) (hd2 : cs2.Digests) (hdiff : cs1 k ≠ cs2 k) :
    cs1.index k ≠ cs2.index k := by
  unfold CheckSums.index
  cases h1 : cs1 k with
  | none =>
    cases h2 : cs2 k with
    | none => exact absurd (h1.trans h2.symm) hdiff
    | some v2 =>
      simp only [Option.getD_none, Option.getD_some]
      exact fun e => hd2 k v2 h2 e.symm
  | some v1 =>
    cases h2 : cs2 k with
    | none =>
      simp only [Option.getD_none, Option.getD_some]
      exact hd1 k v1 h1
    | some v2 =>
      simp only [Option.getD_some]
      intro e
      exact hdiff (by rw [h1, h2, e])

/-- C5: for every component synthesizer and every two checksum maps (of digests, as
the writers store them) that differ at exactly one artifact name and agree
everywhere else, the two `podAnnotations` maps built from them differ at exactly
the annotation keys whose value is read from that name and are equal at every
other annotation key. -/
theorem podAnnotations_frame (c : Common κ) (b : HybridBotanist κ) (comp : Component)
    (cs2 : CheckSums) (k : String) (p1 : Values κ)
    (hd1 : b.CheckSums.Digests) (hd2 : cs2.Digests)
    (hdiff : b.CheckSums k ≠ cs2 k)
    (hsame : ∀ j, j ≠ k → b.CheckSums j = cs2 j)
    (h1 : synthesized c b comp = some p1) :
    ∃ p2, synthesized c { b with CheckSums := cs2 } comp = some p2 ∧
      ∀ a, annotationAt p1 a ≠ annotationAt p2 a ↔ (a, k) ∈ podAnnotationSources c comp :=
  podAnnotations_frame_of_read c b comp cs2 k p1
    (index_ne_of_digests b.CheckSums cs2 k hd1 hd2 hdiff)
    (fun j hj => by simp only [CheckSums.index, hsame j hj]) h1

/-- Witness for C5: changing only `ca-etcd` changes only `checksum/secret-etcd-ca`,
in the etcd payload and in the API server payload, and nothing in the other three
components. -/
theorem podAnnotations_frame_witness :
    caEtcdFrameAt .etcd ∧ caEtcdFrameAt .kubeAPIServer ∧ caEtcdFrameAt .kubeControllerManager ∧
      caEtcdFrameAt .cloudControllerManager ∧ caEtcdFrameAt .kubeScheduler := by
  have hd1 : sampleBotanist.CheckSums.Digests := by
    intro name value h
    by_cases hn : name = "ca-etcd"
    · simp [sampleBotanist, hn] at h
      rw [← h]; decide
    · simp [sampleBotanist, hn] at h
  have hd2 : rotatedCheckSums.Digests := by
    intro name value h
    by_cases hn : name = "ca-etcd"
    · simp [rotatedCheckSums, hn] at h
      rw [← h]; decide
    · simp [rotatedCheckSums, hn] at h
  have key : ∀ comp, caEtcdFrameAt comp := by
    intro comp
    have hp : (synthesized sampleCommon sampleBotanist comp).isSome = true := by
      cases comp <;> rfl
    obtain ⟨p1, h1⟩ := Option.isSome_iff_exists.1 hp
    obtain ⟨p2, h2, h⟩ := podAnnotations_frame sampleCommon sampleBotanist comp
      rotatedCheckSums "ca-etcd" p1 hd1 hd2 (by decide)
      (by intro j hj; simp [sampleBotanist, rotatedCheckSums, hj]) h1
    refine ⟨p1, p2, h1, h2, fun a => (h a).trans ?_⟩
    cases comp <;> simp [podAnnotationSources, sampleCommon]
  exact ⟨key _, key _, key _, key _, key _⟩

/-- C9 as stated fails: with no checksum entry for `ca-etcd` the etcd payload
still has an entry at `checksum/secret-etcd-ca`, holding the empty string. -/
theorem missing_checksum_not_omitted :
    noChecksumBotanist.CheckSums "ca-etcd" = none ∧
    ("checksum/secret-etcd-ca", "ca-etcd") ∈ podAnnotationSources sampleCommon .etcd ∧
    (synthesized sampleCommon noChecksumBotanist .etcd).bind
        (fun p => annotationAt p "checksum/secret-etcd-ca") = some (.str "") ∧
    (synthesized sampleCommon noChecksumBotanist .etcd).bind
        (fun p => annotationAt p "checksum/secret-etcd-ca") ≠ none := by
  refine ⟨rfl, by decide, rfl, ?_⟩
  have h : (synthesized sampleCommon noChecksumBotanist .etcd).bind
      (fun p => annotationAt p "checksum/secret-etcd-ca") = some (.str "") := rfl
  rw [h]
  simp

/-- C9, amended: for every component and every checksum map without an entry for an
artifact name the component reads, whether a payload is synthesized does not
depend on the checksum map, and in the synthesized payload the annotation key read
from that name is present and holds the empty string. -/
theorem missing_checksum_reads_empty (c : Common κ) (b : HybridBotanist κ) (comp : Component)
    (k a : String) (hk : b.CheckSums k = none) (ha : (a, k) ∈ podAnnotationSources c comp) :
    (∀ cs, (synthesized c { b with CheckSums := cs } comp).isSome =
      (synthesized c b comp).isSome) ∧
    ∀ p, synthesized c b comp = some p → annotationAt p a = some (.str "") := by
  refine ⟨fun cs => (synthesized_shape c b cs comp).1, fun p hp => ?_⟩
  rw [annotationAt_of_podAnnotations c b.CheckSums comp p a
    ((synthesized_shape c b b.CheckSums comp).2 p hp)]
  rw [(mem_iff_lookup a k _ (podAnnotationSources_nodup c comp)).1 ha]
  simp [CheckSums.index, hk]

/-- Witness for C9, amended: the scheduler with an empty checksum map. -/
theorem missing_checksum_reads_empty_witness :
    ∃ p, synthesized sampleCommon noChecksumBotanist .kubeScheduler = some p ∧
      annotationAt p "checksum/secret-kube-scheduler" = some (.str "") := by
  obtain ⟨p, hp⟩ := Option.isSome_iff_exists.1
    (rfl : (synthesized sampleCommon noChecksumBotanist .kubeScheduler).isSome = true)
  exact ⟨p, hp, (missing_checksum_reads_empty sampleCommon noChecksumBotanist .kubeScheduler
    "kube-scheduler" "checksum/secret-kube-scheduler" rfl (by decide)).2 p hp⟩

end ControlPlane
